import Mathlib

/-!
# OpenLux network-to-serial bridge: verification of the request/response core

This file embeds, in Lean 4, the parts of the OpenLux source that the
specification's testable properties talk about:

* `CRC16.calculate` (utils/crc16.cpp) — CRC-16/Modbus over a byte span;
* the serial codec (`InverterProtocol`, modules/inverter_protocol.cpp):
  response parsing, frame-length calculation, frame splitting and
  response matching;
* the TCP codec (`TcpProtocol.build_response`, modules/tcp_protocol.cpp);
* the fallback cache and the bridge error/success paths
  (`ProtocolBridge`, modules/protocol_bridge.cpp);
* the serial arbiter's response validation
  (`RS485Manager.handle_response`, modules/rs485_manager.cpp);
* the operation guard (`OperationGuardManager`, modules/operation_guard.cpp).

Bytes are modelled as `Nat` values (< 256 where it matters), machine
integers as `Nat` with explicit `% 2^32` where uint32 wraparound matters,
buffers as `List Nat`.
-/

/-! ## CRC-16/Modbus (utils/crc16.cpp, `CRC16::calculate`)

```
uint16_t crc = 0xFFFF;
for (size_t i = 0; i < length; i++) {
    crc ^= data[i];
    for (int j = 0; j < 8; j++) {
        if (crc & 0x0001) { crc = (crc >> 1) ^ 0xA001; } else { crc >>= 1; }
    }
}
return crc;
```
-/

namespace CRC16

/-- One inner-loop iteration of `CRC16::calculate`. -/
def shiftRound (crc : Nat) : Nat :=
  if crc &&& 1 = 1 then (crc >>> 1) ^^^ 0xA001 else crc >>> 1

/-- One outer-loop iteration: XOR the byte in, then eight shift rounds. -/
def updateByte (crc b : Nat) : Nat :=
  shiftRound (shiftRound (shiftRound (shiftRound
    (shiftRound (shiftRound (shiftRound (shiftRound (crc ^^^ b))))))))

/-- `CRC16::calculate` over a byte span. -/
def calculate (data : List Nat) : Nat :=
  data.foldl updateByte 0xFFFF

theorem shiftRound_even (s : Nat) (h : s % 2 = 0) : shiftRound s = s / 2 := by
  simp [shiftRound, Nat.and_one_is_mod, h, Nat.shiftRight_eq_div_pow]

theorem shiftRound_double (m : Nat) : shiftRound (2 * m) = m := by
  rw [shiftRound_even (2 * m) (Nat.mul_mod_right 2 m)]
  omega

/-- Eight clean shift rounds divide a multiple of 256 by 256. -/
theorem shiftRound8_mul256 (k : Nat) : updateByte (256 * k) 0 = k := by
  have h0 : (256 * k) ^^^ 0 = 256 * k := Nat.xor_zero _
  simp only [updateByte, h0]
  have h1 : 256 * k = 2 * (128 * k) := by ring
  have h2 : 128 * k = 2 * (64 * k) := by ring
  have h3 : 64 * k = 2 * (32 * k) := by ring
  have h4 : 32 * k = 2 * (16 * k) := by ring
  have h5 : 16 * k = 2 * (8 * k) := by ring
  have h6 : 8 * k = 2 * (4 * k) := by ring
  have h7 : 4 * k = 2 * (2 * k) := by ring
  rw [h1, shiftRound_double, h2, shiftRound_double, h3, shiftRound_double,
    h4, shiftRound_double, h5, shiftRound_double, h6, shiftRound_double,
    h7, shiftRound_double, shiftRound_double]

/-- XORing a value with its own low byte clears the low byte. -/
theorem xor_low_byte (c : Nat) : c ^^^ (c % 256) = 256 * (c / 256) := by
  have h256 : (256 : Nat) = 2 ^ 8 := by norm_num
  apply Nat.eq_of_testBit_eq
  intro i
  rcases Nat.lt_or_ge i 8 with hi | hi
  · have hmod : Nat.testBit (c % 256) i = Nat.testBit c i := by
      rw [h256, Nat.testBit_mod_two_pow]
      simp [hi]
    have hmul : Nat.testBit (256 * (c / 256)) i = false := by
      have : 256 * (c / 256) = (c / 256) <<< 8 := by
        rw [Nat.shiftLeft_eq, h256]; ring
      rw [this, Nat.testBit_shiftLeft]
      simp [Nat.not_le_of_lt hi]
    rw [Nat.testBit_xor, hmod, hmul, Bool.xor_self]
  · have hmod : Nat.testBit (c % 256) i = false := by
      rw [h256, Nat.testBit_mod_two_pow]
      simp [Nat.not_lt_of_le hi]
    have hmul : Nat.testBit (256 * (c / 256)) i = Nat.testBit c i := by
      have heq : 256 * (c / 256) = (c / 256) <<< 8 := by
        rw [Nat.shiftLeft_eq, h256]; ring
      have hdiv : c / 256 = c >>> 8 := by
        rw [h256, Nat.shiftRight_eq_div_pow]
      rw [heq, Nat.testBit_shiftLeft, hdiv, Nat.testBit_shiftRight]
      have : 8 + (i - 8) = i := by omega
      simp [hi, this]
    rw [Nat.testBit_xor, hmod, hmul, Bool.xor_false]

/-- Feeding the low byte of the running CRC into the update divides it by 256. -/
theorem updateByte_low (c : Nat) : updateByte c (c % 256) = c / 256 := by
  have h1 : updateByte c (c % 256) = updateByte (256 * (c / 256)) 0 := by
    simp only [updateByte, xor_low_byte, Nat.xor_zero]
  rw [h1, shiftRound8_mul256]

theorem shiftRound_lt (s : Nat) (h : s < 65536) : shiftRound s < 65536 := by
  unfold shiftRound
  have hs : s >>> 1 = s / 2 := by
    rw [Nat.shiftRight_eq_div_pow]
  split
  · have h1 : s / 2 < 2 ^ 16 := by omega
    have h2 : (0xA001 : Nat) < 2 ^ 16 := by norm_num
    have := Nat.xor_lt_two_pow h1 h2
    rw [hs]
    simpa using this
  · omega

theorem updateByte_lt (c b : Nat) (hc : c < 65536) (hb : b < 65536) :
    updateByte c b < 65536 := by
  have h1 : c ^^^ b < 2 ^ 16 := by
    apply Nat.xor_lt_two_pow <;> · norm_num; omega
  have h1' : c ^^^ b < 65536 := by simpa using h1
  unfold updateByte
  exact shiftRound_lt _ (shiftRound_lt _ (shiftRound_lt _ (shiftRound_lt _
    (shiftRound_lt _ (shiftRound_lt _ (shiftRound_lt _ (shiftRound_lt _ h1')))))))

theorem calculate_lt (data : List Nat) (h : ∀ x ∈ data, x < 256) :
    calculate data < 65536 := by
  unfold calculate
  have hgen : ∀ (l : List Nat) (c : Nat), c < 65536 → (∀ x ∈ l, x < 256) →
      l.foldl updateByte c < 65536 := by
    intro l
    induction l with
    | nil => intro c hc _; simpa using hc
    | cons a t ih =>
      intro c hc hall
      have ha : a < 256 := hall a (List.mem_cons_self a t)
      have ht : ∀ x ∈ t, x < 256 := fun x hx => hall x (List.mem_cons_of_mem a hx)
      simp only [List.foldl_cons]
      exact ih _ (updateByte_lt c a hc (by omega)) ht
  exact hgen data 0xFFFF (by norm_num) h

end CRC16

/-! ## Little-endian u16 helpers (`write_little_endian_uint16`,
`parse_little_endian_uint16`; identical in every codec of the source). -/

/-- The two bytes `write_little_endian_uint16` stores:
`value & 0xFF` then `(value >> 8) & 0xFF`. -/
def writeLE16 (value : Nat) : List Nat :=
  [value &&& 0xFF, (value >>> 8) &&& 0xFF]

/-- `parse_little_endian_uint16`: `data[offset] | data[offset+1] << 8`. -/
def parseLE16 (data : List Nat) (offset : Nat) : Nat :=
  data.getD offset 0 ||| (data.getD (offset + 1) 0) <<< 8

theorem writeLE16_eq (v : Nat) (hv : v < 65536) :
    writeLE16 v = [v % 256, v / 256] := by
  have h1 : v &&& 0xFF = v % 256 := by
    have := Nat.and_pow_two_sub_one_eq_mod v 8
    norm_num at this
    simpa using this
  have h2 : (v >>> 8) &&& 0xFF = v / 256 := by
    have hs : v >>> 8 = v / 256 := by
      rw [Nat.shiftRight_eq_div_pow]
    have := Nat.and_pow_two_sub_one_eq_mod (v >>> 8) 8
    norm_num at this
    rw [this, hs, Nat.mod_eq_of_lt (by omega)]
  simp [writeLE16, h1, h2]

/-- C9 helper: appending the running CRC little-endian drives the state to 0. -/
theorem crc_append_zero (c : Nat) (hc : c < 65536) :
    (writeLE16 c).foldl CRC16.updateByte c = 0 := by
  rw [writeLE16_eq c hc]
  simp only [List.foldl_cons, List.foldl_nil]
  rw [CRC16.updateByte_low]
  have hdiv : c / 256 < 256 := by omega
  have hmod : (c / 256) % 256 = c / 256 := Nat.mod_eq_of_lt hdiv
  have := CRC16.updateByte_low (c / 256)
  rw [hmod] at this
  rw [this]
  omega

/-- C9. **CRC round-trip.** For any byte span `b`, appending the CRC computed
over `b` in little-endian order makes the CRC of the extended span zero. -/
theorem C9_crc_round_trip (b : List Nat) (hb : ∀ x ∈ b, x < 256) :
    CRC16.calculate (b ++ writeLE16 (CRC16.calculate b)) = 0 := by
  unfold CRC16.calculate
  rw [List.foldl_append]
  exact crc_append_zero (b.foldl CRC16.updateByte 0xFFFF)
    (CRC16.calculate_lt b hb)

/-- Witness for C9 at the concrete span `[0x01, 0x03, 0x10, 0xFF]`. -/
theorem C9_crc_round_trip_witness :
    (∀ x ∈ [0x01, 0x03, 0x10, 0xFF], x < 256) ∧
    CRC16.calculate ([0x01, 0x03, 0x10, 0xFF] ++
      writeLE16 (CRC16.calculate [0x01, 0x03, 0x10, 0xFF])) = 0 :=
  ⟨by decide, C9_crc_round_trip [0x01, 0x03, 0x10, 0xFF] (by decide)⟩

/-! ## Serial codec (modules/inverter_protocol.cpp / .h, `InverterProtocol`)

Constants from inverter_protocol.h and the response-parsing, frame-length,
frame-splitting and response-matching functions from inverter_protocol.cpp.
-/

namespace InverterProtocol

def MODBUS_DEVICE_ADDR_REQUEST : Nat := 0x00

def MODBUS_DEVICE_ADDR_RESPONSE : Nat := 0x01

def MODBUS_SERIAL_NUMBER_LENGTH : Nat := 10

def MODBUS_MAX_REGISTERS : Nat := 127

def MODBUS_MIN_REQUEST_SIZE : Nat := 18

def MODBUS_MIN_RESPONSE_SIZE : Nat := 17

def MODBUS_MIN_EXCEPTION_SIZE : Nat := 17

/-- `struct ParseResult` (inverter_protocol.h). `function_code` holds the
uint8 value of the `ModbusFunctionCode` enum (default `READ_INPUT` = 0x04). -/
structure ParseResult where
  success : Bool := false
  function_code : Nat := 0x04
  start_address : Nat := 0
  register_count : Nat := 0
  serial_number : List Nat := List.replicate 10 0
  register_values : List Nat := []
  error_message : String := ""
deriving DecidableEq, Repr

/-- Arduino `String(n, HEX)`: lowercase hex digits, no leading zeros. -/
def hexStr (n : Nat) : String :=
  String.mk (Nat.toDigits 16 n)

def exceptionCodeName (code : Nat) : String :=
  if code = 0x01 then "Illegal function"
  else if code = 0x02 then "Illegal data address"
  else if code = 0x03 then "Illegal data value"
  else if code = 0x04 then "Slave device failure"
  else "Unknown exception"

def modbusExceptionTag : String := "Modbus Exception"

/-- The message built by `parse_exception_response` when the frame is long
enough to carry the exception code. -/
def modbusExceptionMsg (code reg : Nat) : String :=
  modbusExceptionTag ++ (" 0x") ++ hexStr code ++ (": ") ++
    exceptionCodeName code ++ (" (register ") ++ toString reg ++ (")")

def msgExcHeaderShort : String := "Exception response too short to read header"

def msgExcMalformed : String := "Modbus exception (malformed response)"

def msgRespHeaderShort : String := "Response packet too short to read header"

def msgRespShort : String := "Response packet too short"

def msgCrcMismatch : String := "CRC mismatch"

def msgInvalid : String := "Invalid response packet"

def msgUnknownFunc : String := "Unknown function code in response"

/-- `InverterProtocol::is_request`. -/
def is_request (data : List Nat) : Bool :=
  if data.length < 1 then false
  else data.getD 0 0 == MODBUS_DEVICE_ADDR_REQUEST

/-- `InverterProtocol::is_valid_response`. -/
def is_valid_response (data : List Nat) : Bool :=
  if data.length < 2 then false
  else
    let func := data.getD 1 0
    let is_exception := func &&& 0x80 ≠ 0
    let min_size := if is_exception then MODBUS_MIN_EXCEPTION_SIZE
      else MODBUS_MIN_RESPONSE_SIZE
    if data.length < min_size then false
    else if data.getD 0 0 ≠ MODBUS_DEVICE_ADDR_RESPONSE then false
    else
      let base_func := func &&& 0x7F
      base_func = 0x03 ∨ base_func = 0x04 ∨ base_func = 0x06 ∨ base_func = 0x10

/-- `parse_exception_response` (static, inverter_protocol.cpp). Note that
`success` is never set: an exception parse result always carries
`success = false`. -/
def parse_exception_response (data : List Nat) : ParseResult :=
  if data.length < 12 then
    { error_message := msgExcHeaderShort }
  else
    let func_byte := data.getD 1 0
    let base := func_byte &&& 0x7F
    let serial := (data.drop 2).take MODBUS_SERIAL_NUMBER_LENGTH
    if data.length ≥ MODBUS_MIN_EXCEPTION_SIZE then
      let failed_register := parseLE16 data 12
      let exception_code := data.getD 14 0
      { function_code := base, serial_number := serial,
        start_address := failed_register,
        error_message := modbusExceptionMsg exception_code failed_register }
    else
      { function_code := base, serial_number := serial,
        error_message := msgExcMalformed }

/-- `parse_read_response` (function 0x03 / 0x04). On CRC mismatch the
message is recorded but parsing continues and `success` is still set. -/
def parse_read_response (data : List Nat) (func_byte : Nat) : ParseResult :=
  if data.length < 15 then
    { function_code := func_byte, error_message := msgRespHeaderShort }
  else
    let serial := (data.drop 2).take MODBUS_SERIAL_NUMBER_LENGTH
    let start_address := parseLE16 data 12
    let byte_count := data.getD 14 0
    let frame_length := 17 + byte_count
    if data.length < frame_length then
      { function_code := func_byte, serial_number := serial,
        start_address := start_address, error_message := msgRespShort }
    else
      let calculated_crc := CRC16.calculate (data.take (frame_length - 2))
      let received_crc := parseLE16 data (frame_length - 2)
      let err := if calculated_crc ≠ received_crc then msgCrcMismatch else ""
      { success := true, function_code := func_byte, serial_number := serial,
        start_address := start_address,
        register_count := byte_count / 2,
        register_values := (List.range (byte_count / 2)).map
          (fun i => parseLE16 data (15 + 2 * i)),
        error_message := err }

/-- `parse_write_single_response` (function 0x06). -/
def parse_write_single_response (data : List Nat) : ParseResult :=
  if data.length < 18 then
    { function_code := 0x06, error_message := msgRespShort }
  else
    let serial := (data.drop 2).take MODBUS_SERIAL_NUMBER_LENGTH
    let start_address := parseLE16 data 12
    let calculated_crc := CRC16.calculate (data.take (data.length - 2))
    let received_crc := parseLE16 data (data.length - 2)
    let err := if calculated_crc ≠ received_crc then msgCrcMismatch else ""
    { success := true, function_code := 0x06, serial_number := serial,
      start_address := start_address, register_count := 1,
      register_values := [parseLE16 data 14],
      error_message := err }

/-- `parse_write_multi_response` (function 0x10). -/
def parse_write_multi_response (data : List Nat) : ParseResult :=
  if data.length < 18 then
    { function_code := 0x10, error_message := msgRespShort }
  else
    let serial := (data.drop 2).take MODBUS_SERIAL_NUMBER_LENGTH
    let start_address := parseLE16 data 12
    let calculated_crc := CRC16.calculate (data.take (data.length - 2))
    let received_crc := parseLE16 data (data.length - 2)
    let err := if calculated_crc ≠ received_crc then msgCrcMismatch else ""
    { success := true, function_code := 0x10, serial_number := serial,
      start_address := start_address,
      register_count := parseLE16 data 14,
      error_message := err }

/-- `InverterProtocol::parse_response` — main entry point. -/
def parse_response (data : List Nat) : ParseResult :=
  if ¬ is_valid_response data then
    { error_message := msgInvalid }
  else
    let func_byte := data.getD 1 0
    if func_byte &&& 0x80 ≠ 0 then
      parse_exception_response data
    else if func_byte = 0x03 ∨ func_byte = 0x04 then
      parse_read_response data func_byte
    else if func_byte = 0x06 then
      parse_write_single_response data
    else if func_byte = 0x10 then
      parse_write_multi_response data
    else
      { error_message := msgUnknownFunc }

/-- `InverterProtocol::calculate_frame_length`. The `frame` list is the
window starting at the classification point; `frame.length` plays the role
of the `available` argument. -/
def calculate_frame_length (frame : List Nat) : Nat :=
  if frame.length < 2 then 0
  else
    let addr := frame.getD 0 0
    let func := frame.getD 1 0 &&& 0x7F
    if addr = MODBUS_DEVICE_ADDR_REQUEST then 18
    else if frame.getD 1 0 &&& 0x80 ≠ 0 then MODBUS_MIN_EXCEPTION_SIZE
    else if func = 0x03 ∨ func = 0x04 then
      if frame.length ≥ 15 then 17 + frame.getD 14 0 else 0
    else if func = 0x06 ∨ func = 0x10 then 18
    else 0

/-- `struct FrameInfo` (inverter_protocol.h). -/
structure FrameInfo where
  offset : Nat
  length : Nat
  is_request : Bool
  result : ParseResult := {}
deriving DecidableEq, Repr

/-- Loop body of `InverterProtocol::parse_all_frames`, walking the buffer
from `offset`; each iteration consumes a full frame or advances one byte, so
`data.length` iterations always suffice — the `fuel` argument is pure
termination bookkeeping and never runs out when started at `data.length`. -/
def parse_all_frames_aux (data : List Nat) : Nat → Nat → List FrameInfo
  | 0, _ => []
  | fuel + 1, offset =>
    if offset < data.length then
      if data.length - offset < 2 then []
      else if data.getD offset 0 = MODBUS_DEVICE_ADDR_REQUEST then
        if 0 < calculate_frame_length (data.drop offset) ∧
            calculate_frame_length (data.drop offset) ≤ data.length - offset then
          { offset := offset, length := calculate_frame_length (data.drop offset),
            is_request := true } ::
            parse_all_frames_aux data fuel (offset + calculate_frame_length (data.drop offset))
        else
          parse_all_frames_aux data fuel (offset + 1)
      else if data.getD offset 0 = MODBUS_DEVICE_ADDR_RESPONSE then
        if 0 < calculate_frame_length (data.drop offset) ∧
            calculate_frame_length (data.drop offset) ≤ data.length - offset then
          { offset := offset, length := calculate_frame_length (data.drop offset),
            is_request := false,
            result := parse_response
              ((data.drop offset).take (calculate_frame_length (data.drop offset))) } ::
            parse_all_frames_aux data fuel (offset + calculate_frame_length (data.drop offset))
        else
          parse_all_frames_aux data fuel (offset + 1)
      else
        parse_all_frames_aux data fuel (offset + 1)
    else []

/-- `InverterProtocol::parse_all_frames`. -/
def parse_all_frames (data : List Nat) : List FrameInfo :=
  parse_all_frames_aux data data.length 0

/-- Loop of `InverterProtocol::find_matching_response_index`, with the
running index made explicit. -/
def find_matching_aux (frames : List FrameInfo) (i : Nat)
    (expected_func expected_start : Nat) : Int :=
  match frames with
  | [] => -1
  | frame :: rest =>
    if frame.is_request then
      find_matching_aux rest (i + 1) expected_func expected_start
    else if frame.result.success = true ∧
        frame.result.function_code = expected_func ∧
        frame.result.start_address = expected_start then
      (i : Int)
    else
      find_matching_aux rest (i + 1) expected_func expected_start

/-- `InverterProtocol::find_matching_response_index`: index of the matching
frame, or `-1` when none matches. -/
def find_matching_response_index (frames : List FrameInfo)
    (expected_func expected_start : Nat) : Int :=
  find_matching_aux frames 0 expected_func expected_start

end InverterProtocol

namespace InverterProtocol

/-- C2's reading of the matcher, taken from the spec's words: the first
response frame whose function byte with the high bit cleared equals the
expected function and whose start register equals the expected start —
with no requirement that the parse was marked successful, so exception
responses would match on `function & 0x7F`. -/
def spec_find_matching_response (frames : List FrameInfo)
    (expected_func expected_start : Nat) : Option Nat :=
  frames.findIdx? (fun fr => !fr.is_request &&
    fr.result.function_code == expected_func &&
    fr.result.start_address == expected_start)

/-- The predicate the code's matcher actually selects on. -/
def matches_code (f s : Nat) (fr : FrameInfo) : Prop :=
  fr.is_request = false ∧ fr.result.success = true ∧
    fr.result.function_code = f ∧ fr.result.start_address = s

theorem find_matching_aux_cases (frames : List FrameInfo) (f s i : Nat) :
    (find_matching_aux frames i f s = -1 ∧ ∀ fr ∈ frames, ¬ matches_code f s fr) ∨
    (∃ k : Nat, find_matching_aux frames i f s = ((i + k : Nat) : Int) ∧
      ∃ fr, frames[k]? = some fr ∧ matches_code f s fr ∧
        ∀ j, j < k → ∀ fr', frames[j]? = some fr' → ¬ matches_code f s fr') := by
  induction frames generalizing i with
  | nil => left; simp [find_matching_aux]
  | cons fr rest ih =>
    by_cases hreq : fr.is_request
    · rcases ih (i + 1) with ⟨heq, hall⟩ | ⟨k, heq, fr', hget, hm, hearlier⟩
      · left
        refine ⟨by simp [find_matching_aux, hreq, heq], ?_⟩
        intro x hx
        rcases List.mem_cons.mp hx with rfl | hx'
        · intro hc; exact absurd hc.1 (by simp [hreq])
        · exact hall x hx'
      · right
        refine ⟨k + 1, ?_, fr', by simpa using hget, hm, ?_⟩
        · have : i + 1 + k = i + (k + 1) := by omega
          simp only [find_matching_aux, hreq, if_true]
          rw [heq, this]
        · intro j hj fr'' hget''
          match j with
          | 0 =>
            simp at hget''
            subst hget''
            intro hc; exact absurd hc.1 (by simp [hreq])
          | j' + 1 =>
            exact hearlier j' (by omega) fr'' (by simpa using hget'')
    · by_cases hmatch : fr.result.success = true ∧
          fr.result.function_code = f ∧ fr.result.start_address = s
      · right
        refine ⟨0, ?_, fr, by simp, ⟨by simpa using hreq, hmatch.1, hmatch.2.1, hmatch.2.2⟩, ?_⟩
        · simp [find_matching_aux, hreq, hmatch]
        · intro j hj; omega
      · rcases ih (i + 1) with ⟨heq, hall⟩ | ⟨k, heq, fr', hget, hm, hearlier⟩
        · left
          refine ⟨by simp [find_matching_aux, hreq, hmatch, heq], ?_⟩
          intro x hx
          rcases List.mem_cons.mp hx with rfl | hx'
          · intro hc; exact hmatch ⟨hc.2.1, hc.2.2⟩
          · exact hall x hx'
        · right
          refine ⟨k + 1, ?_, fr', by simpa using hget, hm, ?_⟩
          · have : i + 1 + k = i + (k + 1) := by omega
            simp only [find_matching_aux, hreq, if_false, hmatch]
            rw [if_neg (by simp), heq, this]
          · intro j hj fr'' hget''
            match j with
            | 0 =>
              simp at hget''
              subst hget''
              intro hc; exact hmatch ⟨hc.2.1, hc.2.2⟩
            | j' + 1 =>
              exact hearlier j' (by omega) fr'' (by simpa using hget'')

end InverterProtocol

/-- A 17-byte inverter exception frame: address 0x01, function 0x83
(read-holding exception), ten zero serial bytes, start register 100
(little-endian), exception code 0x02, two (unchecked) CRC bytes. -/
def exceptionBuf : List Nat :=
  [0x01, 0x83] ++ List.replicate 10 0 ++ [0x64, 0x00, 0x02, 0x00, 0x00]

/-- C2 counterexample. Splitting `exceptionBuf` yields exactly one response
descriptor whose base function is 0x03 and start register 100, so the claim
("exception responses match on `function & 0x7F` the same way normal
responses match") demands index 0 — but the code returns -1, because
`find_matching_response_index` also requires `result.success`, which an
exception parse never sets. -/
theorem C2_counterexample :
    InverterProtocol.spec_find_matching_response
      (InverterProtocol.parse_all_frames exceptionBuf) 0x03 100 = some 0 ∧
    (InverterProtocol.parse_all_frames exceptionBuf).length = 1 ∧
    InverterProtocol.find_matching_response_index
      (InverterProtocol.parse_all_frames exceptionBuf) 0x03 100 = -1 := by
  decide

/-- C2 (amended): exception parse results always carry `success = false`,
and `find_matching_response_index` returns the index of the first response
descriptor whose parse **succeeded** and whose function code and start
register match — `-1` when no such descriptor exists. Exception responses
are therefore never selected. -/
theorem C2_find_matching_amended :
    (∀ data : List Nat, (InverterProtocol.parse_exception_response data).success = false) ∧
    (∀ (frames : List InverterProtocol.FrameInfo) (f s : Nat),
      (InverterProtocol.find_matching_response_index frames f s = -1 ∧
        ∀ fr ∈ frames, ¬ InverterProtocol.matches_code f s fr) ∨
      (∃ k : Nat, InverterProtocol.find_matching_response_index frames f s = (k : Int) ∧
        ∃ fr, frames[k]? = some fr ∧ InverterProtocol.matches_code f s fr ∧
          ∀ j, j < k → ∀ fr', frames[j]? = some fr' →
            ¬ InverterProtocol.matches_code f s fr')) := by
  constructor
  · intro data
    unfold InverterProtocol.parse_exception_response
    split
    · rfl
    · split <;> rfl
  · intro frames f s
    have h := InverterProtocol.find_matching_aux_cases frames f s 0
    simpa [InverterProtocol.find_matching_response_index] using h

/-- C6 counterexample. For the two available bytes `[0x01, 0x83]` — a
response with the exception bit set — the frame-length calculator returns
`MODBUS_MIN_EXCEPTION_SIZE` = 17, not the 15 the claim states. -/
theorem C6_counterexample :
    InverterProtocol.calculate_frame_length [0x01, 0x83] = 17 ∧
    InverterProtocol.calculate_frame_length [0x01, 0x83] ≠ 15 := by
  decide

/-- C6 (amended): given at least 2 bytes the calculator returns 18 for any
request (leading byte 0x00), **17** for any exception response, a
`17 + byte_count` for 0x03/0x04 responses once 15 bytes are available (0
before that), 18 for 0x06/0x10 responses, and 0 otherwise. -/
theorem C6_frame_length_amended (frame : List Nat) (h2 : 2 ≤ frame.length) :
    (frame.getD 0 0 = 0x00 → InverterProtocol.calculate_frame_length frame = 18) ∧
    (frame.getD 0 0 ≠ 0x00 → frame.getD 1 0 &&& 0x80 ≠ 0 →
      InverterProtocol.calculate_frame_length frame = 17) ∧
    (frame.getD 0 0 ≠ 0x00 → frame.getD 1 0 &&& 0x80 = 0 →
      (frame.getD 1 0 &&& 0x7F = 0x03 ∨ frame.getD 1 0 &&& 0x7F = 0x04) →
      (15 ≤ frame.length →
        InverterProtocol.calculate_frame_length frame = 17 + frame.getD 14 0) ∧
      (frame.length < 15 → InverterProtocol.calculate_frame_length frame = 0)) ∧
    (frame.getD 0 0 ≠ 0x00 → frame.getD 1 0 &&& 0x80 = 0 →
      (frame.getD 1 0 &&& 0x7F = 0x06 ∨ frame.getD 1 0 &&& 0x7F = 0x10) →
      InverterProtocol.calculate_frame_length frame = 18) ∧
    (frame.getD 0 0 ≠ 0x00 → frame.getD 1 0 &&& 0x80 = 0 →
      ¬ (frame.getD 1 0 &&& 0x7F = 0x03 ∨ frame.getD 1 0 &&& 0x7F = 0x04) →
      ¬ (frame.getD 1 0 &&& 0x7F = 0x06 ∨ frame.getD 1 0 &&& 0x7F = 0x10) →
      InverterProtocol.calculate_frame_length frame = 0) := by
  unfold InverterProtocol.calculate_frame_length
  simp only [InverterProtocol.MODBUS_DEVICE_ADDR_REQUEST,
    InverterProtocol.MODBUS_DEVICE_ADDR_RESPONSE,
    InverterProtocol.MODBUS_MIN_EXCEPTION_SIZE]
  refine ⟨?_, ?_, ?_, ?_, ?_⟩ <;> intros <;> split_ifs <;> simp_all <;> omega

/-- Witness for C6 (amended) at the exception prefix `[0x01, 0x83]`. -/
theorem C6_frame_length_amended_witness :
    2 ≤ ([0x01, 0x83] : List Nat).length ∧
    (([0x01, 0x83] : List Nat).getD 0 0 ≠ 0x00 →
      ([0x01, 0x83] : List Nat).getD 1 0 &&& 0x80 ≠ 0 →
      InverterProtocol.calculate_frame_length [0x01, 0x83] = 17) :=
  ⟨by decide, (C6_frame_length_amended [0x01, 0x83] (by decide)).2.1⟩

/-! ## TCP codec (modules/tcp_protocol.cpp, `TcpProtocol::build_response`) -/

namespace TcpProtocol

def TCP_PROTO_PREFIX : List Nat := [0xA1, 0x1A]

def TCP_PROTO_VERSION_RESPONSE : Nat := 5

def TCP_PROTO_RESERVED : Nat := 1

def TCP_PROTO_FUNC_TRANSLATED : Nat := 194

def TCP_PROTO_DONGLE_SERIAL_LEN : Nat := 10

/-- `TcpProtocol::build_response`. Wraps a raw inverter response in a client
frame: the data frame is the full inverter response minus its trailing
2 CRC bytes, and a fresh CRC is computed over exactly that data frame.
`none` models the `return false` path (response shorter than the minimum:
17 bytes for exception responses, 18 otherwise). -/
def build_response (rs485_response : List Nat) (dongle_serial : List Nat) :
    Option (List Nat) :=
  let func := rs485_response.getD 1 0
  let is_exception := func &&& 0x80 ≠ 0
  let min_size := if is_exception then 17 else 18
  if rs485_response.length < min_size then none
  else
    let data_frame_size := rs485_response.length - 2
    let frame_length := 14 + data_frame_size + 2
    let data_frame := rs485_response.take data_frame_size
    let crc := CRC16.calculate data_frame
    some (TCP_PROTO_PREFIX ++ writeLE16 TCP_PROTO_VERSION_RESPONSE ++
      writeLE16 frame_length ++ [TCP_PROTO_RESERVED] ++ [TCP_PROTO_FUNC_TRANSLATED] ++
      dongle_serial.take TCP_PROTO_DONGLE_SERIAL_LEN ++
      writeLE16 data_frame_size ++ data_frame ++ writeLE16 crc)

end TcpProtocol

/-! ## Fallback cache (modules/protocol_bridge.h / protocol_bridge.cpp)

`std::map<ReadCacheKey, ReadCacheEntry>` is modelled as an association
list; `mapInsert` keeps the `operator<` order the way `operator[]` does,
`mapErase` removes the (unique) entry under a key, `mapFind` looks a key
up. `millis()` timestamps are uint32 values; their subtraction is
`u32sub`. -/

/-- uint32 subtraction `a - b` with wraparound. -/
def u32sub (a b : Nat) : Nat :=
  ((a % 2 ^ 32) + 2 ^ 32 - (b % 2 ^ 32)) % 2 ^ 32

theorem u32sub_eq_of_le (a b : Nat) (hb : b ≤ a) (ha : a < 2 ^ 32) :
    u32sub a b = a - b := by
  unfold u32sub
  have hb' : b < 2 ^ 32 := lt_of_le_of_lt hb ha
  rw [Nat.mod_eq_of_lt ha, Nat.mod_eq_of_lt hb']
  have h1 : a + 2 ^ 32 - b = (a - b) + 2 ^ 32 := by omega
  rw [h1, Nat.add_mod_right, Nat.mod_eq_of_lt (by omega)]

namespace ProtocolBridge

/-- `struct ReadCacheKey` with its lexicographic `operator<`. -/
structure ReadCacheKey where
  function_code : Nat
  start_register : Nat
  register_count : Nat
deriving DecidableEq, Repr

/-- `ReadCacheKey::operator<`. -/
def keyLt (a b : ReadCacheKey) : Bool :=
  if a.function_code ≠ b.function_code then a.function_code < b.function_code
  else if a.start_register ≠ b.start_register then a.start_register < b.start_register
  else a.register_count < b.register_count

/-- `struct ReadCacheEntry`. -/
structure ReadCacheEntry where
  key : ReadCacheKey
  tcp_response_packet : List Nat
  timestamp_ms : Nat
  hit_count : Nat
  last_access_ms : Nat
deriving DecidableEq, Repr

/-- `ReadCacheEntry::is_stale`. -/
def ReadCacheEntry.is_stale (e : ReadCacheEntry) (now_ms ttl_ms : Nat) : Bool :=
  u32sub now_ms e.timestamp_ms > ttl_ms

/-- `ReadCacheEntry::get_age`. -/
def ReadCacheEntry.get_age (e : ReadCacheEntry) (now_ms : Nat) : Nat :=
  u32sub now_ms e.timestamp_ms

/-- `ReadCacheEntry::is_older_than`. -/
def ReadCacheEntry.is_older_than (e other : ReadCacheEntry) : Bool :=
  e.timestamp_ms < other.timestamp_ms

/-- The fallback cache: `std::map<ReadCacheKey, ReadCacheEntry>`. -/
abbrev Cache : Type := List (ReadCacheKey × ReadCacheEntry)

def MAX_CACHE_ENTRIES : Nat := 10

def MAX_CACHE_AGE_MS : Nat := 10 * 60 * 1000

def REQUEST_TIMEOUT_MS : Nat := 2000

/-- `std::map::find` + dereference. -/
def mapFind (c : Cache) (k : ReadCacheKey) : Option ReadCacheEntry :=
  (List.find? (fun p => p.1 == k) c).map (fun p => p.2)

/-- `std::map::erase(it)` for the entry found under `k` (no-op when absent,
matching the `find`-then-`erase` call sites). -/
def mapErase (c : Cache) (k : ReadCacheKey) : Cache :=
  List.eraseP (fun p => p.1 == k) c

/-- `map[key] = entry`: replace the entry under the key if present, else
insert at the `operator<` position. -/
def mapInsert : Cache → ReadCacheKey → ReadCacheEntry → Cache
  | [], k, e => [(k, e)]
  | p :: rest, k, e =>
    if keyLt k p.1 then (k, e) :: p :: rest
    else if p.1 == k then (k, e) :: rest
    else p :: mapInsert rest k e

/-- The map keys, for the no-duplicate well-formedness invariant. -/
def cacheKeys (c : Cache) : List ReadCacheKey :=
  List.map (fun p => p.1) c

/-- Well-formedness of the map model: one entry per key. -/
def cacheWF (c : Cache) : Prop :=
  (cacheKeys c).Nodup

/-- The scan of `evict_oldest_cache_entry`'s second pass: start from the
first entry, replace whenever a strictly older one is seen. -/
def oldestScan : Cache → Option (ReadCacheKey × ReadCacheEntry)
  | [] => none
  | p :: rest =>
    some (rest.foldl (fun best q => if q.2.is_older_than best.2 then q else best) p)

/-- `ProtocolBridge::evict_oldest_cache_entry`: TTL pass, then — if the
table still holds at least `MAX_CACHE_ENTRIES` entries — evict the entry
with the smallest `timestamp_ms`. -/
def evict_oldest_cache_entry (c : Cache) (now_ms : Nat) : Cache :=
  if List.isEmpty c then c
  else
    let c1 := List.filter (fun p => ¬ (p.2.get_age now_ms > MAX_CACHE_AGE_MS)) c
    if c1.length ≥ MAX_CACHE_ENTRIES then
      match oldestScan c1 with
      | some oldest => mapErase c1 oldest.1
      | none => c1
    else c1

/-- `ReadCacheEntry` stored by `cache_response_for_fallback`: fresh
timestamps, zero hit count. -/
def mkEntry (k : ReadCacheKey) (tcp_response : List Nat) (now_ms : Nat) : ReadCacheEntry :=
  { key := k, tcp_response_packet := tcp_response, timestamp_ms := now_ms,
    hit_count := 0, last_access_ms := now_ms }

/-- `ProtocolBridge::cache_response_for_fallback` (`put`): evict any entry
under the same key, run maintenance, store the new entry. -/
def cache_response_for_fallback (c : Cache) (k : ReadCacheKey)
    (tcp_response : List Nat) (now_ms : Nat) : Cache :=
  let c0 := mapErase c k
  let c1 := evict_oldest_cache_entry c0 now_ms
  mapInsert c1 k (mkEntry k tcp_response now_ms)

/-- `ProtocolBridge::get_fallback_response` (`get`): on hit, bump
`hit_count`, refresh `last_access_ms`, hand back the stored bytes. No
staleness check of any kind is performed here. -/
def get_fallback_response (c : Cache) (k : ReadCacheKey) (now_ms : Nat) :
    Option (List Nat) × Cache :=
  match mapFind c k with
  | none => (none, c)
  | some e =>
    (some e.tcp_response_packet,
      List.map (fun p => if p.1 == k then
        (p.1, { p.2 with hit_count := p.2.hit_count + 1, last_access_ms := now_ms })
        else p) c)

end ProtocolBridge

namespace ProtocolBridge

theorem keyLt_irrefl (k : ReadCacheKey) : keyLt k k = false := by
  simp [keyLt]

theorem mapFind_mapInsert_self (c : Cache) (k : ReadCacheKey) (e : ReadCacheEntry) :
    mapFind (mapInsert c k e) k = some e := by
  induction c with
  | nil => simp [mapInsert, mapFind, List.find?]
  | cons p rest ih =>
    by_cases h1 : keyLt k p.1 = true
    · simp [mapInsert, h1, mapFind, List.find?]
    · by_cases h2 : p.1 = k
      · simp [mapInsert, h1, h2, keyLt_irrefl, mapFind, List.find?]
      · have hne : (p.1 == k) = false := by simp [h2]
        simp only [mapInsert, h1, if_false, hne, Bool.false_eq_true]
        simp only [mapFind, List.find?, hne] at ih ⊢
        exact ih

theorem mapFind_mapInsert_ne (c : Cache) (k k' : ReadCacheKey) (e : ReadCacheEntry)
    (hne : k' ≠ k) : mapFind (mapInsert c k e) k' = mapFind c k' := by
  have hkk : (k == k') = false := by
    simp
    intro h
    exact hne h.symm
  induction c with
  | nil => simp [mapInsert, mapFind, List.find?, hkk]
  | cons p rest ih =>
    by_cases h1 : keyLt k p.1 = true
    · simp [mapInsert, h1, mapFind, List.find?, hkk]
    · by_cases h2 : p.1 = k
      · have hp : (p.1 == k') = false := by
          rw [h2]
          exact hkk
        simp [mapInsert, h1, h2, keyLt_irrefl, mapFind, List.find?, hkk, hp]
      · have hne2 : (p.1 == k) = false := by simp [h2]
        simp only [mapInsert, h1, if_false, hne2, Bool.false_eq_true]
        by_cases h3 : p.1 = k'
        · simp [mapFind, List.find?, h3]
        · have hp : (p.1 == k') = false := by simp [h3]
          simp only [mapFind, List.find?, hp] at ih ⊢
          exact ih

theorem mapFind_eq_none_iff (c : Cache) (k : ReadCacheKey) :
    mapFind c k = none ↔ k ∉ cacheKeys c := by
  simp only [mapFind, Option.map_eq_none', List.find?_eq_none, cacheKeys, List.mem_map]
  constructor
  · rintro h ⟨p, hp, rfl⟩
    exact absurd (by simp) (h p hp)
  · intro h p hp hbeq
    exact h ⟨p, hp, by simpa using hbeq⟩

theorem mapFind_mem (c : Cache) (k : ReadCacheKey) (e : ReadCacheEntry)
    (h : mapFind c k = some e) : (k, e) ∈ c := by
  simp only [mapFind, Option.map_eq_some'] at h
  obtain ⟨p, hp, he⟩ := h
  have h1 := List.find?_some hp
  have h2 : p ∈ c := List.mem_of_find?_eq_some hp
  have hk : p.1 = k := by simpa using h1
  have hpe : (k, e) = p := by
    cases p
    simp_all
  rw [hpe]
  exact h2

theorem mem_mapFind (c : Cache) (k : ReadCacheKey) (e : ReadCacheEntry)
    (hwf : cacheWF c) (hm : (k, e) ∈ c) : mapFind c k = some e := by
  induction c with
  | nil => simp at hm
  | cons p rest ih =>
    have hwf1 : p.1 ∉ cacheKeys rest ∧ (cacheKeys rest).Nodup := by
      simpa [cacheWF, cacheKeys] using hwf
    rcases List.mem_cons.mp hm with heq | hmem
    · simp [mapFind, List.find?, ← heq]
    · have hk : k ∈ cacheKeys rest :=
        List.mem_map.mpr ⟨(k, e), hmem, rfl⟩
      have hne : p.1 ≠ k := fun hcontra => hwf1.1 (hcontra ▸ hk)
      have hbeq : (p.1 == k) = false := by simp [hne]
      simp only [mapFind, List.find?, hbeq]
      exact ih (by simpa [cacheWF, cacheKeys] using hwf1.2) hmem

theorem cacheKeys_cons (p : ReadCacheKey × ReadCacheEntry) (rest : Cache) :
    cacheKeys (p :: rest) = p.1 :: cacheKeys rest := rfl

theorem not_mem_keys_cons (p : ReadCacheKey × ReadCacheEntry) (rest : Cache)
    (k : ReadCacheKey) (h : k ∉ cacheKeys (p :: rest)) :
    p.1 ≠ k ∧ k ∉ cacheKeys rest := by
  rw [cacheKeys_cons] at h
  constructor
  · intro hc
    exact h (hc ▸ List.mem_cons_self p.1 (cacheKeys rest))
  · intro hc
    exact h (List.mem_cons_of_mem p.1 hc)

theorem cacheWF_cons_iff (p : ReadCacheKey × ReadCacheEntry) (rest : Cache) :
    cacheWF (p :: rest) ↔ p.1 ∉ cacheKeys rest ∧ cacheWF rest := by
  simp [cacheWF, cacheKeys_cons, List.nodup_cons]

theorem mapErase_of_not_mem (c : Cache) (k : ReadCacheKey) (h : k ∉ cacheKeys c) :
    mapErase c k = c := by
  apply List.eraseP_of_forall_not
  intro p hp hbeq
  exact h (List.mem_map.mpr ⟨p, hp, by simpa using hbeq⟩)

theorem mem_mapInsert_fresh (c : Cache) (k : ReadCacheKey) (e : ReadCacheEntry)
    (h : k ∉ cacheKeys c) (q : ReadCacheKey × ReadCacheEntry) :
    q ∈ mapInsert c k e ↔ q = (k, e) ∨ q ∈ c := by
  induction c with
  | nil => simp [mapInsert]
  | cons p rest ih =>
    obtain ⟨hk1, hk2⟩ := not_mem_keys_cons p rest k h
    by_cases h1 : keyLt k p.1 = true
    · simp only [mapInsert, h1, if_true, List.mem_cons]
    · have hbeq : (p.1 == k) = false := by simp [hk1]
      simp only [mapInsert, h1, if_false, hbeq, Bool.false_eq_true, List.mem_cons]
      rw [ih hk2]
      tauto

theorem length_mapInsert_fresh (c : Cache) (k : ReadCacheKey) (e : ReadCacheEntry)
    (h : k ∉ cacheKeys c) : (mapInsert c k e).length = c.length + 1 := by
  induction c with
  | nil => simp [mapInsert]
  | cons p rest ih =>
    obtain ⟨hk1, hk2⟩ := not_mem_keys_cons p rest k h
    by_cases h1 : keyLt k p.1 = true
    · simp [mapInsert, h1]
    · have hbeq : (p.1 == k) = false := by simp [hk1]
      simp only [mapInsert, h1, if_false, hbeq, Bool.false_eq_true, List.length_cons]
      rw [ih hk2]

theorem mem_cacheKeys_mapInsert_fresh (c : Cache) (k : ReadCacheKey)
    (e : ReadCacheEntry) (h : k ∉ cacheKeys c) (x : ReadCacheKey) :
    x ∈ cacheKeys (mapInsert c k e) ↔ x = k ∨ x ∈ cacheKeys c := by
  simp only [cacheKeys, List.mem_map]
  constructor
  · rintro ⟨q, hq, rfl⟩
    rcases (mem_mapInsert_fresh c k e h q).mp hq with rfl | hq'
    · exact Or.inl rfl
    · exact Or.inr ⟨q, hq', rfl⟩
  · rintro (rfl | ⟨q, hq, rfl⟩)
    · exact ⟨(x, e), (mem_mapInsert_fresh c x e h _).mpr (Or.inl rfl), rfl⟩
    · exact ⟨q, (mem_mapInsert_fresh c k e h q).mpr (Or.inr hq), rfl⟩

theorem cacheWF_mapInsert_fresh (c : Cache) (k : ReadCacheKey) (e : ReadCacheEntry)
    (h : k ∉ cacheKeys c) (hwf : cacheWF c) : cacheWF (mapInsert c k e) := by
  induction c with
  | nil => simp [mapInsert, cacheWF, cacheKeys]
  | cons p rest ih =>
    obtain ⟨hk1, hk2⟩ := not_mem_keys_cons p rest k h
    obtain ⟨hwf1, hwf2⟩ := (cacheWF_cons_iff p rest).mp hwf
    by_cases h1 : keyLt k p.1 = true
    · simp only [mapInsert, h1, if_true]
      rw [show ((k, e) : ReadCacheKey × ReadCacheEntry) :: p :: rest =
        (k, e) :: (p :: rest) from rfl, cacheWF_cons_iff]
      exact ⟨h, hwf⟩
    · have hbeq : (p.1 == k) = false := by simp [hk1]
      simp only [mapInsert, h1, if_false, hbeq, Bool.false_eq_true]
      rw [cacheWF_cons_iff]
      refine ⟨?_, ih hk2 hwf2⟩
      intro hc
      rcases (mem_cacheKeys_mapInsert_fresh rest k e hk2 p.1).mp hc with rfl | hc'
      · exact hk1 rfl
      · exact hwf1 hc'

theorem mem_mapErase (c : Cache) (k : ReadCacheKey) (hwf : cacheWF c)
    (q : ReadCacheKey × ReadCacheEntry) :
    q ∈ mapErase c k ↔ q ∈ c ∧ q.1 ≠ k := by
  induction c with
  | nil => simp [mapErase]
  | cons p rest ih =>
    obtain ⟨hwf1, hwf2⟩ := (cacheWF_cons_iff p rest).mp hwf
    by_cases h1 : p.1 = k
    · have hbeq : (p.1 == k) = true := by simp [h1]
      simp only [mapErase, List.eraseP_cons, hbeq, cond_true]
      constructor
      · intro hq
        refine ⟨List.mem_cons_of_mem p hq, ?_⟩
        intro hcontra
        apply hwf1
        rw [h1, ← hcontra]
        exact List.mem_map.mpr ⟨q, hq, rfl⟩
      · rintro ⟨hq, hne⟩
        rcases List.mem_cons.mp hq with rfl | hq'
        · exact absurd h1 hne
        · exact hq'
    · have hbeq : (p.1 == k) = false := by simp [h1]
      simp only [mapErase, List.eraseP_cons, hbeq, cond_false, List.mem_cons]
      have := ih hwf2
      simp only [mapErase] at this
      rw [this]
      constructor
      · rintro (rfl | ⟨hq, hne⟩)
        · exact ⟨Or.inl rfl, h1⟩
        · exact ⟨Or.inr hq, hne⟩
      · rintro ⟨rfl | hq, hne⟩
        · exact Or.inl rfl
        · exact Or.inr ⟨hq, hne⟩

theorem length_mapErase_mem (c : Cache) (k : ReadCacheKey) (h : k ∈ cacheKeys c) :
    (mapErase c k).length = c.length - 1 := by
  obtain ⟨p, hp, hpk⟩ := List.mem_map.mp h
  exact List.length_eraseP_of_mem hp (by simpa using hpk)

theorem cacheWF_mapErase (c : Cache) (k : ReadCacheKey) (hwf : cacheWF c) :
    cacheWF (mapErase c k) := by
  have hsub : List.Sublist (mapErase c k) c := List.eraseP_sublist c
  exact List.Nodup.sublist (List.Sublist.map _ hsub) hwf

theorem not_mem_cacheKeys_mapErase (c : Cache) (k : ReadCacheKey) (hwf : cacheWF c) :
    k ∉ cacheKeys (mapErase c k) := by
  intro hc
  obtain ⟨q, hq, hqk⟩ := List.mem_map.mp hc
  have := (mem_mapErase c k hwf q).mp hq
  exact this.2 hqk

theorem foldl_oldest (l : Cache) (p p0 : ReadCacheKey × ReadCacheEntry)
    (hmem : p0 = p ∨ p0 ∈ l)
    (hmin : ∀ q, (q = p ∨ q ∈ l) → q = p0 ∨ p0.2.timestamp_ms < q.2.timestamp_ms) :
    l.foldl (fun best q => if q.2.is_older_than best.2 then q else best) p = p0 := by
  induction l generalizing p with
  | nil =>
    rcases hmem with rfl | hmem
    · rfl
    · simp at hmem
  | cons q rest ih =>
    simp only [List.foldl_cons]
    by_cases hq : q.2.is_older_than p.2 = true
    · rw [if_pos hq]
      simp only [ReadCacheEntry.is_older_than, decide_eq_true_eq] at hq
      apply ih
      · rcases hmem with rfl | hmem'
        · rcases hmin q (Or.inr (List.mem_cons_self q rest)) with rfl | hlt
          · exact Or.inl rfl
          · omega
        · rcases List.mem_cons.mp hmem' with rfl | hr
          · exact Or.inl rfl
          · exact Or.inr hr
      · intro r hr
        apply hmin
        rcases hr with rfl | hr'
        · exact Or.inr (List.mem_cons_self r rest)
        · exact Or.inr (List.mem_cons_of_mem q hr')
    · rw [if_neg hq]
      simp only [ReadCacheEntry.is_older_than, decide_eq_true_eq] at hq
      apply ih
      · rcases hmem with rfl | hmem'
        · exact Or.inl rfl
        · rcases List.mem_cons.mp hmem' with rfl | hr
          · rcases hmin p (Or.inl rfl) with rfl | hlt
            · exact Or.inl rfl
            · omega
          · exact Or.inr hr
      · intro r hr
        apply hmin
        rcases hr with rfl | hr'
        · exact Or.inl rfl
        · exact Or.inr (List.mem_cons_of_mem q hr')

theorem oldestScan_unique (c : Cache) (p0 : ReadCacheKey × ReadCacheEntry)
    (hne : c ≠ []) (hmem : p0 ∈ c)
    (hmin : ∀ q ∈ c, q = p0 ∨ p0.2.timestamp_ms < q.2.timestamp_ms) :
    oldestScan c = some p0 := by
  match c, hne with
  | p :: rest, _ =>
    simp only [oldestScan, Option.some_inj]
    apply foldl_oldest
    · rcases List.mem_cons.mp hmem with rfl | hm
      · exact Or.inl rfl
      · exact Or.inr hm
    · intro q hq
      apply hmin
      rcases hq with rfl | hq'
      · exact List.mem_cons_self q rest
      · exact List.mem_cons_of_mem p hq'

theorem ttl_filter_eq_self (c : Cache) (now_ms : Nat)
    (h : ∀ p ∈ c, ReadCacheEntry.get_age p.2 now_ms ≤ MAX_CACHE_AGE_MS) :
    List.filter (fun p => ¬ (ReadCacheEntry.get_age p.2 now_ms > MAX_CACHE_AGE_MS)) c = c := by
  rw [List.filter_eq_self]
  intro p hp
  simpa using Nat.not_lt_of_le (h p hp)

theorem evict_noop (c : Cache) (now_ms : Nat)
    (hsize : c.length < MAX_CACHE_ENTRIES)
    (h : ∀ p ∈ c, ReadCacheEntry.get_age p.2 now_ms ≤ MAX_CACHE_AGE_MS) :
    evict_oldest_cache_entry c now_ms = c := by
  unfold evict_oldest_cache_entry
  split
  · rfl
  · rw [ttl_filter_eq_self c now_ms h]
    rw [if_neg (by omega)]

/-- The `put` of a fresh key into a table that is not full and holds no
stale entry: pure insertion. -/
theorem put_fresh_not_full (c : Cache) (k : ReadCacheKey) (v : List Nat) (now_ms : Nat)
    (hk : k ∉ cacheKeys c) (hsize : c.length < MAX_CACHE_ENTRIES)
    (hages : ∀ p ∈ c, ReadCacheEntry.get_age p.2 now_ms ≤ MAX_CACHE_AGE_MS) :
    cache_response_for_fallback c k v now_ms = mapInsert c k (mkEntry k v now_ms) := by
  show mapInsert (evict_oldest_cache_entry (mapErase c k) now_ms) k (mkEntry k v now_ms) =
    mapInsert c k (mkEntry k v now_ms)
  rw [mapErase_of_not_mem c k hk, evict_noop c now_ms hsize hages]

/-- The `put` of a fresh key into a full, unexpired table: the scan-minimum
entry is evicted, then the new entry inserted. -/
theorem put_fresh_full (c : Cache) (k : ReadCacheKey) (v : List Nat) (now_ms : Nat)
    (hk : k ∉ cacheKeys c) (hsize : c.length = MAX_CACHE_ENTRIES)
    (hages : ∀ p ∈ c, ReadCacheEntry.get_age p.2 now_ms ≤ MAX_CACHE_AGE_MS)
    (p0 : ReadCacheKey × ReadCacheEntry) (hp0 : p0 ∈ c)
    (hmin : ∀ q ∈ c, q = p0 ∨ p0.2.timestamp_ms < q.2.timestamp_ms) :
    cache_response_for_fallback c k v now_ms =
      mapInsert (mapErase c p0.1) k (mkEntry k v now_ms) := by
  show mapInsert (evict_oldest_cache_entry (mapErase c k) now_ms) k (mkEntry k v now_ms) =
    mapInsert (mapErase c p0.1) k (mkEntry k v now_ms)
  rw [mapErase_of_not_mem c k hk]
  have hne : c ≠ [] := by
    intro hc
    rw [hc] at hsize
    simp [MAX_CACHE_ENTRIES] at hsize
  unfold evict_oldest_cache_entry
  rw [if_neg (by simpa [List.isEmpty_iff] using hne)]
  rw [ttl_filter_eq_self c now_ms hages]
  rw [if_pos (by omega)]
  rw [oldestScan_unique c p0 hne hp0 hmin]

/-- One `put` call: key, stored bytes, and the `millis()` reading. -/
structure PutOp where
  key : ReadCacheKey
  bytes : List Nat
  at_ms : Nat
deriving DecidableEq, Repr

/-- A sequence of `cache_response_for_fallback` calls. -/
def run_puts (c : Cache) (l : List PutOp) : Cache :=
  l.foldl (fun acc t => cache_response_for_fallback acc t.key t.bytes t.at_ms) c

/-- Filling phase: distinct fresh keys, increasing in-TTL times, table never
full — every put is a pure insertion. -/
theorem run_puts_fill (l : List PutOp) (c : Cache)
    (hwf : cacheWF c)
    (hlen : c.length + l.length ≤ MAX_CACHE_ENTRIES)
    (hnodup : (l.map PutOp.key).Nodup)
    (hdisj : ∀ t ∈ l, t.key ∉ cacheKeys c)
    (hbound : ∀ t ∈ l, t.at_ms < 2 ^ 32)
    (hctimes : ∀ p ∈ c, ∀ t ∈ l, p.2.timestamp_ms ≤ t.at_ms ∧
      t.at_ms - p.2.timestamp_ms ≤ MAX_CACHE_AGE_MS)
    (hltimes : List.Pairwise (fun a b => a.at_ms ≤ b.at_ms ∧
      b.at_ms - a.at_ms ≤ MAX_CACHE_AGE_MS) l) :
    cacheWF (run_puts c l) ∧
    (run_puts c l).length = c.length + l.length ∧
    (∀ q, q ∈ run_puts c l ↔ q ∈ c ∨
      ∃ t ∈ l, q = (t.key, mkEntry t.key t.bytes t.at_ms)) := by
  induction l generalizing c with
  | nil =>
    refine ⟨hwf, by simp [run_puts], ?_⟩
    intro q
    simp [run_puts]
  | cons t rest ih =>
    have hkc : t.key ∉ cacheKeys c := hdisj t (List.mem_cons_self t rest)
    have htb : t.at_ms < 2 ^ 32 := hbound t (List.mem_cons_self t rest)
    have hages : ∀ p ∈ c, ReadCacheEntry.get_age p.2 t.at_ms ≤ MAX_CACHE_AGE_MS := by
      intro p hp
      have h1 := hctimes p hp t (List.mem_cons_self t rest)
      unfold ReadCacheEntry.get_age
      rw [u32sub_eq_of_le _ _ h1.1 htb]
      exact h1.2
    have hstep : cache_response_for_fallback c t.key t.bytes t.at_ms =
        mapInsert c t.key (mkEntry t.key t.bytes t.at_ms) :=
      put_fresh_not_full c t.key t.bytes t.at_ms hkc (by simp at hlen; omega) hages
    have hrun : run_puts c (t :: rest) =
        run_puts (mapInsert c t.key (mkEntry t.key t.bytes t.at_ms)) rest := by
      simp only [run_puts, List.foldl_cons, hstep]
    set c' := mapInsert c t.key (mkEntry t.key t.bytes t.at_ms) with hc'
    have hwf' : cacheWF c' := cacheWF_mapInsert_fresh c t.key _ hkc hwf
    have hmem' : ∀ q, q ∈ c' ↔ q = (t.key, mkEntry t.key t.bytes t.at_ms) ∨ q ∈ c :=
      mem_mapInsert_fresh c t.key _ hkc
    have hlen' : c'.length = c.length + 1 := length_mapInsert_fresh c t.key _ hkc
    have hkeys' : ∀ x, x ∈ cacheKeys c' ↔ x = t.key ∨ x ∈ cacheKeys c :=
      mem_cacheKeys_mapInsert_fresh c t.key _ hkc
    have hnodup' : (rest.map PutOp.key).Nodup := (List.nodup_cons.mp hnodup).2
    have hheadkey : t.key ∉ rest.map PutOp.key := (List.nodup_cons.mp hnodup).1
    have hpair := List.pairwise_cons.mp hltimes
    have ihres := ih c' hwf'
      (by rw [hlen']; simp at hlen ⊢; omega)
      hnodup'
      (by
        intro t' ht'
        rw [hkeys']
        rintro (hk1 | hk2)
        · exact hheadkey (by
            rw [← hk1]
            exact List.mem_map.mpr ⟨t', ht', rfl⟩)
        · exact hdisj t' (List.mem_cons_of_mem t ht') hk2)
      (fun t' ht' => hbound t' (List.mem_cons_of_mem t ht'))
      (by
        intro p hp t' ht'
        rcases (hmem' p).mp hp with rfl | hpc
        · exact ⟨(hpair.1 t' ht').1, (hpair.1 t' ht').2⟩
        · exact hctimes p hpc t' (List.mem_cons_of_mem t ht'))
      hpair.2
    refine ⟨by rw [hrun]; exact ihres.1, ?_, ?_⟩
    · rw [hrun, ihres.2.1, hlen']
      simp
      omega
    · intro q
      rw [hrun, ihres.2.2 q, hmem' q]
      constructor
      · rintro ((rfl | hqc) | ⟨t', ht', rfl⟩)
        · exact Or.inr ⟨t, List.mem_cons_self t rest, rfl⟩
        · exact Or.inl hqc
        · exact Or.inr ⟨t', List.mem_cons_of_mem t ht', rfl⟩
      · rintro (hqc | ⟨t', ht', rfl⟩)
        · exact Or.inl (Or.inr hqc)
        · rcases List.mem_cons.mp ht' with rfl | hrest
          · exact Or.inl (Or.inl rfl)
          · exact Or.inr ⟨t', hrest, rfl⟩

/-- `get` directly after `put` hands back the freshly stored bytes. -/
theorem get_after_put (c : Cache) (k : ReadCacheKey) (v : List Nat)
    (now_ms now2_ms : Nat) :
    (get_fallback_response (cache_response_for_fallback c k v now_ms) k now2_ms).1 =
      some v := by
  have hfind := mapFind_mapInsert_self
    (evict_oldest_cache_entry (mapErase c k) now_ms) k (mkEntry k v now_ms)
  simp only [mkEntry] at hfind
  simp [get_fallback_response, cache_response_for_fallback, mkEntry, hfind]

/-- After `MAX_CACHE_ENTRIES + 1` puts with pairwise-distinct keys at
strictly increasing times inside one TTL window, starting from the empty
table: exactly `MAX_CACHE_ENTRIES` entries remain and the key of the very
first put — the entry with the smallest `timestamp_ms` — is gone. -/
theorem eleven_puts_evict (l : List PutOp)
    (hlen : l.length = MAX_CACHE_ENTRIES + 1)
    (hnodup : (l.map PutOp.key).Nodup)
    (hsorted : List.Pairwise (fun a b => a.at_ms < b.at_ms) l)
    (hbound : ∀ t ∈ l, t.at_ms < 2 ^ 32)
    (hwindow : ∀ a ∈ l, ∀ b ∈ l, a.at_ms ≤ b.at_ms →
      b.at_ms - a.at_ms ≤ MAX_CACHE_AGE_MS) :
    (run_puts [] l).length = MAX_CACHE_ENTRIES ∧
    (∀ t0, l.head? = some t0 → mapFind (run_puts [] l) t0.key = none) := by
  have hne : l ≠ [] := by
    intro hc
    rw [hc] at hlen
    simp [MAX_CACHE_ENTRIES] at hlen
  have heq : l.dropLast ++ [l.getLast hne] = l := List.dropLast_concat_getLast hne
  set D := l.dropLast with hD
  set tl := l.getLast hne with htl
  have hsubD : List.Sublist D l := heq ▸ List.sublist_append_left D [tl]
  have hmemD : ∀ t ∈ D, t ∈ l := fun t ht => hsubD.mem ht
  have hDlen : D.length = MAX_CACHE_ENTRIES := by
    have := congrArg List.length heq
    simp at this
    omega
  have hfill := run_puts_fill D [] (by simp [cacheWF, cacheKeys])
    (by simp; omega)
    (List.Nodup.sublist (hsubD.map PutOp.key) hnodup)
    (by intro t _; simp [cacheKeys])
    (fun t ht => hbound t (hmemD t ht))
    (by intro p hp; simp at hp)
    (by
      refine List.Pairwise.imp_of_mem ?_ (hsorted.sublist hsubD)
      intro a b ha hb hab
      exact ⟨Nat.le_of_lt hab, hwindow a (hmemD a ha) b (hmemD b hb) (Nat.le_of_lt hab)⟩)
  obtain ⟨hwf10, hlen10, hmem10⟩ := hfill
  set c10 := run_puts [] D with hc10
  have hlen10' : c10.length = MAX_CACHE_ENTRIES := by
    rw [hlen10]
    simpa using hDlen
  have htlmem : tl ∈ l := heq ▸ List.mem_append_right D (List.mem_cons_self tl [])
  have htlb : tl.at_ms < 2 ^ 32 := hbound tl htlmem
  -- keys in the dropLast segment are distinct from the last key
  have hkeysplit : tl.key ∉ D.map PutOp.key := by
    have hnd : (D.map PutOp.key ++ [tl.key]).Nodup := by
      have hmapsplit : (D ++ [tl]).map PutOp.key = D.map PutOp.key ++ [tl.key] := by simp
      rw [← hmapsplit, heq]
      exact hnodup
    intro hc
    exact (List.nodup_append.mp hnd).2.2 hc (by simp)
  have hkc10 : ∀ x, x ∈ cacheKeys c10 ↔ ∃ t ∈ D, x = t.key := by
    intro x
    constructor
    · intro hx
      obtain ⟨q, hq, rfl⟩ := List.mem_map.mp hx
      rcases (hmem10 q).mp hq with hfalse | ⟨t, ht, rfl⟩
      · simp at hfalse
      · exact ⟨t, ht, rfl⟩
    · rintro ⟨t, ht, rfl⟩
      exact List.mem_map.mpr ⟨(t.key, mkEntry t.key t.bytes t.at_ms),
        (hmem10 _).mpr (Or.inr ⟨t, ht, rfl⟩), rfl⟩
  have htlfresh : tl.key ∉ cacheKeys c10 := by
    rw [hkc10]
    rintro ⟨t, ht, htk⟩
    exact hkeysplit (List.mem_map.mpr ⟨t, ht, htk.symm⟩)
  -- Pairwise over the split: every dropLast time is before the last time
  have hDlast : ∀ t ∈ D, t.at_ms < tl.at_ms := by
    have := heq ▸ hsorted
    rw [List.pairwise_append] at this
    intro t ht
    exact this.2.2 t ht tl (List.mem_cons_self tl [])
  have hages10 : ∀ p ∈ c10, ReadCacheEntry.get_age p.2 tl.at_ms ≤ MAX_CACHE_AGE_MS := by
    intro p hp
    rcases (hmem10 p).mp hp with hfalse | ⟨t, ht, rfl⟩
    · simp at hfalse
    · unfold ReadCacheEntry.get_age
      simp only [mkEntry]
      rw [u32sub_eq_of_le _ _ (Nat.le_of_lt (hDlast t ht)) htlb]
      exact hwindow t (hmemD t ht) tl htlmem (Nat.le_of_lt (hDlast t ht))
  -- the head of the list names the oldest entry
  rcases hD0 : D with _ | ⟨t0, restD⟩
  · rw [hD0] at hDlen
    simp [MAX_CACHE_ENTRIES] at hDlen
  · have hheadl : l.head? = some t0 := by
      rw [← heq, hD0]
      rfl
    have ht0D : t0 ∈ D := by rw [hD0]; exact List.mem_cons_self t0 restD
    set p0 : ReadCacheKey × ReadCacheEntry :=
      (t0.key, mkEntry t0.key t0.bytes t0.at_ms) with hp0def
    have hp0mem : p0 ∈ c10 := (hmem10 p0).mpr (Or.inr ⟨t0, ht0D, rfl⟩)
    have hDsorted : List.Pairwise (fun a b => a.at_ms < b.at_ms) D :=
      hsorted.sublist hsubD
    have ht0min : ∀ t ∈ restD, t0.at_ms < t.at_ms := by
      have := hD0 ▸ hDsorted
      exact (List.pairwise_cons.mp this).1
    have hmin : ∀ q ∈ c10, q = p0 ∨ p0.2.timestamp_ms < q.2.timestamp_ms := by
      intro q hq
      rcases (hmem10 q).mp hq with hfalse | ⟨t, ht, rfl⟩
      · simp at hfalse
      · rw [hD0] at ht
        rcases List.mem_cons.mp ht with rfl | hrest
        · exact Or.inl rfl
        · right
          simp only [hp0def, mkEntry]
          exact ht0min t hrest
    have hstep := put_fresh_full c10 tl.key tl.bytes tl.at_ms htlfresh hlen10'
      hages10 p0 hp0mem hmin
    have hrunall : run_puts [] l =
        cache_response_for_fallback c10 tl.key tl.bytes tl.at_ms := by
      conv_lhs => rw [← heq]
      unfold run_puts
      rw [List.foldl_append]
      rfl
    have hp0key : p0.1 ∈ cacheKeys c10 := List.mem_map.mpr ⟨p0, hp0mem, rfl⟩
    have herasekeys : tl.key ∉ cacheKeys (mapErase c10 p0.1) := by
      intro hc
      obtain ⟨q, hq, hqk⟩ := List.mem_map.mp hc
      have := (mem_mapErase c10 p0.1 hwf10 q).mp hq
      exact htlfresh (hqk ▸ List.mem_map.mpr ⟨q, this.1, rfl⟩)
    constructor
    · rw [hrunall, hstep]
      rw [length_mapInsert_fresh _ _ _ herasekeys,
        length_mapErase_mem c10 p0.1 hp0key, hlen10']
      simp [MAX_CACHE_ENTRIES]
    · intro t0' ht0'
      have ht0eq : t0' = t0 := by
        rw [hheadl] at ht0'
        exact (Option.some_inj.mp ht0').symm
      subst ht0eq
      rw [hrunall, hstep, mapFind_eq_none_iff]
      intro hc
      rcases (mem_cacheKeys_mapInsert_fresh _ _ _ herasekeys t0'.key).mp hc with hk1 | hk2
      · apply hkeysplit
        rw [← hk1]
        exact List.mem_map.mpr ⟨t0', ht0D, rfl⟩
      · exact not_mem_cacheKeys_mapErase c10 p0.1 hwf10 (by simpa [hp0def] using hk2)

end ProtocolBridge

/-! ## Bridge coordinator (modules/protocol_bridge.cpp, `ProtocolBridge`)

The request/response paths of `process_wifi_request`,
`handle_rs485_success`, `handle_rs485_error`, `send_wifi_response`,
`send_error_response`, `try_fallback_cache_on_error`,
`cache_read_response` and `send_response_to_client`, over an explicit
cache state. The TCP client is modelled as connected; what the bridge
writes to it (or whether it closes the connection) is a `ClientAction`.
The RS485 manager's observable state (`get_last_result`,
`get_last_raw_response`, dispatch success) comes in as parameters. -/

/-- The parsed client request, `struct TcpParseResult` (tcp_protocol.h) —
the fields the bridge paths read. -/
structure TcpParseResult where
  success : Bool := false
  function_code : Nat := 0
  start_register : Nat := 0
  register_count : Nat := 0
  is_write_operation : Bool := false
  write_values : List Nat := []
deriving DecidableEq, Repr

/-- What the bridge does towards the TCP client. -/
inductive ClientAction
  | sendBytes (bytes : List Nat)
  | closeConnection
deriving DecidableEq, Repr

namespace ProtocolBridge

/-- `ProtocolBridge::validate_response_match`. -/
def validate_response_match (result : InverterProtocol.ParseResult)
    (request : TcpParseResult) : Bool :=
  if result.function_code ≠ request.function_code then false
  else if result.start_address ≠ request.start_register then false
  else if result.success then
    if request.is_write_operation then
      result.register_count == request.write_values.length
    else
      result.register_count == request.register_count
  else true

/-- `ProtocolBridge::send_error_response`: when the RS485 manager holds raw
response bytes, wrap and forward them (this is how inverter exceptions
reach the client); otherwise close the connection. -/
def send_error_response (raw_response : List Nat) (dongle_serial : List Nat) :
    ClientAction :=
  if raw_response ≠ [] then
    match TcpProtocol.build_response raw_response dongle_serial with
    | some wifi_response => ClientAction.sendBytes wifi_response
    | none => ClientAction.closeConnection
  else ClientAction.closeConnection

/-- `ProtocolBridge::try_fallback_cache_on_error`: reads only; on a hit the
cached bytes go out through `send_response_to_client`. -/
def try_fallback_cache_on_error (c : Cache) (request : TcpParseResult)
    (now_ms : Nat) : Option (List Nat) × Cache :=
  if request.is_write_operation then (none, c)
  else
    get_fallback_response c
      ⟨request.function_code, request.start_register, request.register_count⟩ now_ms

/-- `ProtocolBridge::cache_read_response`: writes are never cached. -/
def cache_read_response (c : Cache) (request : TcpParseResult)
    (tcp_response : List Nat) (now_ms : Nat) : Cache :=
  if request.is_write_operation then c
  else
    cache_response_for_fallback c
      ⟨request.function_code, request.start_register, request.register_count⟩
      tcp_response now_ms

/-- `ProtocolBridge::handle_rs485_error`. The Boolean marks "answered from
the fallback cache". Both error branches after a cache miss call
`send_error_response`, which forwards the raw inverter bytes when present
(the differing messages are only logged). -/
def handle_rs485_error (c : Cache) (request : TcpParseResult)
    (rs485_result : InverterProtocol.ParseResult) (raw_response : List Nat)
    (dongle_serial : List Nat) (now_ms : Nat) : Cache × ClientAction × Bool :=
  match try_fallback_cache_on_error c request now_ms with
  | (some fallback_response, c') =>
    (c', ClientAction.sendBytes fallback_response, true)
  | (none, c') =>
    if rs485_result.error_message.startsWith InverterProtocol.modbusExceptionTag ∧
        ¬ validate_response_match rs485_result request then
      (c', send_error_response raw_response dongle_serial, false)
    else
      (c', send_error_response raw_response dongle_serial, false)

/-- `ProtocolBridge::handle_rs485_success` together with
`send_wifi_response`: validate, wrap the raw bytes, cache (reads only),
send. -/
def handle_rs485_success (c : Cache) (request : TcpParseResult)
    (rs485_result : InverterProtocol.ParseResult) (raw_response : List Nat)
    (dongle_serial : List Nat) (now_ms : Nat) : Cache × ClientAction × Bool :=
  if ¬ validate_response_match rs485_result request then
    (c, send_error_response raw_response dongle_serial, false)
  else if raw_response = [] then
    (c, send_error_response raw_response dongle_serial, false)
  else
    match TcpProtocol.build_response raw_response dongle_serial with
    | none => (c, send_error_response raw_response dongle_serial, false)
    | some wifi_response =>
      (cache_read_response c request wifi_response now_ms,
        ClientAction.sendBytes wifi_response, false)

/-- `ProtocolBridge::process_rs485_response`, once the arbiter has
completed. -/
def process_rs485_response (c : Cache) (request : TcpParseResult)
    (rs485_result : InverterProtocol.ParseResult) (raw_response : List Nat)
    (dongle_serial : List Nat) (now_ms : Nat) : Cache × ClientAction × Bool :=
  if rs485_result.success then
    handle_rs485_success c request rs485_result raw_response dongle_serial now_ms
  else
    handle_rs485_error c request rs485_result raw_response dongle_serial now_ms

/-- How one client request's bus transaction ends. -/
inductive BusOutcome
  | timeout
  | completed (result : InverterProtocol.ParseResult) (raw : List Nat)
deriving DecidableEq, Repr

/-- The environment one `process_wifi_request` call runs in: the pause
flag, the operation guard, the busy flag, the dispatch result, the raw
bytes the RS485 manager happens to hold (visible to error responses), and
the bus outcome. -/
structure RequestEnv where
  paused : Bool := false
  guard_active : Bool := false
  busy : Bool := false
  dispatch_ok : Bool := true
  last_raw : List Nat := []
  outcome : BusOutcome := BusOutcome.timeout
deriving Repr

/-- One parsed client request, end to end: the pre-checks and dispatch of
`process_wifi_request` (including its fallback-cache attempt when the
serial dispatch fails), then — for dispatched requests — the completion
handling of `loop` / `process_rs485_response`. -/
def process_request (c : Cache) (request : TcpParseResult) (env : RequestEnv)
    (dongle_serial : List Nat) (now_ms : Nat) : Cache × ClientAction × Bool :=
  if env.paused then (c, send_error_response env.last_raw dongle_serial, false)
  else if env.guard_active then (c, send_error_response env.last_raw dongle_serial, false)
  else if ¬ request.success then (c, send_error_response env.last_raw dongle_serial, false)
  else if env.busy then (c, send_error_response env.last_raw dongle_serial, false)
  else if ¬ env.dispatch_ok then
    match get_fallback_response c
      ⟨request.function_code, request.start_register, request.register_count⟩ now_ms with
    | (some fallback_response, c') =>
      (c', ClientAction.sendBytes fallback_response, true)
    | (none, c') => (c', send_error_response env.last_raw dongle_serial, false)
  else
    match env.outcome with
    | BusOutcome.timeout => (c, send_error_response env.last_raw dongle_serial, false)
    | BusOutcome.completed result raw =>
      process_rs485_response c request result raw dongle_serial now_ms

/-- A sequence of client requests processed by the bridge; collects the
"answered from cache" flags. -/
def run_requests (c : Cache)
    (reqs : List (TcpParseResult × RequestEnv × Nat))
    (dongle_serial : List Nat) : Cache × List Bool :=
  match reqs with
  | [] => (c, [])
  | (request, env, now_ms) :: rest =>
    let step := process_request c request env dongle_serial now_ms
    let tail := run_requests step.1 rest dongle_serial
    (tail.1, step.2.2 :: tail.2)

end ProtocolBridge

/-- C3. **Cache semantics.** `put` first drops any entry under the same key,
then runs maintenance (TTL pass, then smallest-`timestamp_ms` eviction when
still at `MAX_CACHE_ENTRIES` = 10), then inserts — the op order is
`cache_response_for_fallback`'s definition. Consequently: (i) `get` right
after `put(k, v)` returns `v`; (ii) after 11 puts with distinct keys at
strictly increasing uint32 times inside one 10-minute window, starting
empty, the table holds exactly 10 entries and the key of the first put —
the entry with the smallest `timestamp_ms` — is absent. -/
theorem C3_cache_put_semantics :
    (∀ (c : ProtocolBridge.Cache) (k : ProtocolBridge.ReadCacheKey)
      (v : List Nat) (now_ms now2_ms : Nat),
      (ProtocolBridge.get_fallback_response
        (ProtocolBridge.cache_response_for_fallback c k v now_ms) k now2_ms).1 =
        some v) ∧
    (∀ l : List ProtocolBridge.PutOp,
      l.length = ProtocolBridge.MAX_CACHE_ENTRIES + 1 →
      (l.map ProtocolBridge.PutOp.key).Nodup →
      List.Pairwise (fun a b => a.at_ms < b.at_ms) l →
      (∀ t ∈ l, t.at_ms < 2 ^ 32) →
      (∀ a ∈ l, ∀ b ∈ l, a.at_ms ≤ b.at_ms →
        b.at_ms - a.at_ms ≤ ProtocolBridge.MAX_CACHE_AGE_MS) →
      (ProtocolBridge.run_puts [] l).length = ProtocolBridge.MAX_CACHE_ENTRIES ∧
      ∀ t0, l.head? = some t0 →
        ProtocolBridge.mapFind (ProtocolBridge.run_puts [] l) t0.key = none) :=
  ⟨ProtocolBridge.get_after_put, ProtocolBridge.eleven_puts_evict⟩

/-- Eleven concrete puts: distinct read fingerprints, one second apart. -/
def elevenPuts : List ProtocolBridge.PutOp :=
  [⟨⟨3, 0, 1⟩, [10], 0⟩, ⟨⟨3, 1, 1⟩, [11], 1000⟩, ⟨⟨3, 2, 1⟩, [12], 2000⟩,
   ⟨⟨3, 3, 1⟩, [13], 3000⟩, ⟨⟨3, 4, 1⟩, [14], 4000⟩, ⟨⟨3, 5, 1⟩, [15], 5000⟩,
   ⟨⟨3, 6, 1⟩, [16], 6000⟩, ⟨⟨3, 7, 1⟩, [17], 7000⟩, ⟨⟨3, 8, 1⟩, [18], 8000⟩,
   ⟨⟨3, 9, 1⟩, [19], 9000⟩, ⟨⟨3, 10, 1⟩, [20], 10000⟩]

/-- Witness for C3 at concrete inputs: a `get` after a `put` on the empty
table, and the eleven concrete puts of `elevenPuts`. -/
theorem C3_cache_put_semantics_witness :
    (ProtocolBridge.get_fallback_response
      (ProtocolBridge.cache_response_for_fallback [] ⟨3, 0, 1⟩ [1, 2] 0)
      ⟨3, 0, 1⟩ 5).1 = some [1, 2] ∧
    elevenPuts.length = ProtocolBridge.MAX_CACHE_ENTRIES + 1 ∧
    ((ProtocolBridge.run_puts [] elevenPuts).length =
      ProtocolBridge.MAX_CACHE_ENTRIES ∧
      ∀ t0, elevenPuts.head? = some t0 →
        ProtocolBridge.mapFind (ProtocolBridge.run_puts [] elevenPuts) t0.key = none) :=
  ⟨C3_cache_put_semantics.1 [] ⟨3, 0, 1⟩ [1, 2] 0 5, by decide,
    C3_cache_put_semantics.2 elevenPuts (by decide) (by decide) (by decide)
      (by decide) (by decide)⟩

/-- Shape of an accepted `build_response` output: 20 header bytes (magic,
version 5, frame length, reserved, 0xC2, 10-byte dongle serial, data-frame
length), the inverter response minus its 2 CRC bytes, and a fresh CRC over
that data frame. -/
theorem build_response_spec (r d : List Nat) (hd : d.length = 10)
    (hacc : (if r.getD 1 0 &&& 0x80 ≠ 0 then 17 else 18) ≤ r.length) :
    TcpProtocol.build_response r d =
      some (([0xA1, 0x1A] ++ writeLE16 5 ++
          writeLE16 (14 + (r.length - 2) + 2) ++ [1] ++ [194] ++ d ++
          writeLE16 (r.length - 2)) ++
        (r.take (r.length - 2) ++
          writeLE16 (CRC16.calculate (r.take (r.length - 2))))) := by
  simp only [TcpProtocol.build_response]
  rw [if_neg (Nat.not_lt_of_le hacc)]
  rw [show TcpProtocol.TCP_PROTO_DONGLE_SERIAL_LEN = 10 from rfl,
    List.take_of_length_le hd.le]
  simp [TcpProtocol.TCP_PROTO_PREFIX, TcpProtocol.TCP_PROTO_VERSION_RESPONSE,
    TcpProtocol.TCP_PROTO_RESERVED, TcpProtocol.TCP_PROTO_FUNC_TRANSLATED]

/-- Length of the 20-byte client-frame header. -/
theorem build_header_length (r d : List Nat) (hd : d.length = 10) :
    ([0xA1, 0x1A] ++ writeLE16 5 ++ writeLE16 (14 + (r.length - 2) + 2) ++
      [1] ++ [194] ++ d ++ writeLE16 (r.length - 2)).length = 20 := by
  simp [writeLE16, hd]

/-- C7. For every inverter response `r` of `N = r.length` bytes accepted by
the TCP response builder: the produced client frame is exactly magic ‖
version 5 ‖ frame length ‖ reserved ‖ 0xC2 ‖ dongle serial ‖ data length ‖
(bytes 0..N−3 of `r`, verbatim) ‖ fresh CRC-16 over exactly that embedded
data frame; its total length is `6 + 14 + (N − 2) + 2`; and the embedded
data frame sits at offset 20. -/
theorem C7_build_response (r d : List Nat) (hd : d.length = 10)
    (hacc : (if r.getD 1 0 &&& 0x80 ≠ 0 then 17 else 18) ≤ r.length) :
    TcpProtocol.build_response r d =
      some (([0xA1, 0x1A] ++ writeLE16 5 ++
          writeLE16 (14 + (r.length - 2) + 2) ++ [1] ++ [194] ++ d ++
          writeLE16 (r.length - 2)) ++
        (r.take (r.length - 2) ++
          writeLE16 (CRC16.calculate (r.take (r.length - 2))))) ∧
    (∀ out, TcpProtocol.build_response r d = some out →
      out.length = 6 + 14 + (r.length - 2) + 2 ∧
      (out.drop 20).take (r.length - 2) = r.take (r.length - 2)) := by
  have hspec := build_response_spec r d hd hacc
  refine ⟨hspec, ?_⟩
  intro out hout
  rw [hspec] at hout
  have hout' := Option.some_inj.mp hout
  subst hout'
  have hmin : r.length - 2 ≤ r.length := by omega
  have htk : (r.take (r.length - 2)).length = r.length - 2 := by
    rw [List.length_take]
    omega
  constructor
  · simp [writeLE16, hd, htk]
    omega
  · rw [List.drop_left' (build_header_length r d hd),
      List.take_append_of_le_length (by omega)]
    rw [List.take_of_length_le (by omega)]

/-- An 18-byte write-single inverter echo (CRC bytes arbitrary — the
builder never checks them). -/
def r18 : List Nat :=
  [1, 6, 48, 48, 48, 48, 48, 48, 48, 48, 48, 48, 21, 0, 3, 0, 9, 9]

/-- A ten-byte all-zero dongle serial. -/
def dongle0 : List Nat := List.replicate 10 0

/-- Witness for C7 at the concrete 18-byte echo `r18`. -/
theorem C7_build_response_witness :
    dongle0.length = 10 ∧
    ((if r18.getD 1 0 &&& 0x80 ≠ 0 then 17 else 18) ≤ r18.length) ∧
    (∀ out, TcpProtocol.build_response r18 dongle0 = some out →
      out.length = 6 + 14 + (r18.length - 2) + 2 ∧
      (out.drop 20).take (r18.length - 2) = r18.take (r18.length - 2)) :=
  ⟨by decide, by decide,
    (C7_build_response r18 dongle0 (by decide) (by decide)).2⟩

namespace ProtocolBridge

/-- A fallback hit hands back exactly the stored entry's bytes — there is
no freshness condition anywhere on this path. -/
theorem try_fallback_serves_stored (c : Cache) (request : TcpParseResult)
    (now_ms : Nat) (e : ReadCacheEntry)
    (hw : request.is_write_operation = false)
    (hfind : mapFind c
      ⟨request.function_code, request.start_register, request.register_count⟩ = some e) :
    (try_fallback_cache_on_error c request now_ms).1 = some e.tcp_response_packet := by
  simp [try_fallback_cache_on_error, hw, get_fallback_response, hfind]

/-- The data frame embedded by an accepted `build_response` output is the
inverter response minus its trailing CRC, at offset 20. -/
theorem build_response_df (r d : List Nat) (hd : d.length = 10)
    (hacc : (if r.getD 1 0 &&& 0x80 ≠ 0 then 17 else 18) ≤ r.length) :
    ∀ out, TcpProtocol.build_response r d = some out →
      (out.drop 20).take (r.length - 2) = r.take (r.length - 2) := by
  intro out hout
  rw [build_response_spec r d hd hacc] at hout
  have hout' := Option.some_inj.mp hout
  subst hout'
  have htk : (r.take (r.length - 2)).length = r.length - 2 := by
    rw [List.length_take]
    omega
  rw [List.drop_left' (build_header_length r d hd),
    List.take_append_of_le_length (by omega)]
  rw [List.take_of_length_le (by omega)]

end ProtocolBridge

/-- A failed arbiter result whose fields the cache-hit path never reads. -/
def failedResult : InverterProtocol.ParseResult := {}

/-- A cache entry created at `millis() = 0`. -/
def staleKey : ProtocolBridge.ReadCacheKey := ⟨4, 0, 40⟩

def staleEntry : ProtocolBridge.ReadCacheEntry :=
  ProtocolBridge.mkEntry staleKey [7, 7, 7] 0

def staleCache : ProtocolBridge.Cache := [(staleKey, staleEntry)]

def staleReadRequest : TcpParseResult :=
  { success := true, function_code := 4, start_register := 0, register_count := 40 }

/-- C4 counterexample. At `millis() = 600001` the sole cache entry (created
at 0) is past the 10-minute TTL — `ReadCacheEntry::is_stale` says so — yet
the error path serves it: neither `try_fallback_cache_on_error` nor
`get_fallback_response` consults any clock before handing the bytes out.
The claim's "within the 10-minute TTL at the moment it is served" is
false. -/
theorem C4_stale_served_counterexample :
    ProtocolBridge.ReadCacheEntry.is_stale staleEntry 600001
      ProtocolBridge.MAX_CACHE_AGE_MS = true ∧
    (ProtocolBridge.handle_rs485_error staleCache staleReadRequest failedResult
      [] dongle0 600001).2.1 = ClientAction.sendBytes [7, 7, 7] ∧
    (ProtocolBridge.handle_rs485_error staleCache staleReadRequest failedResult
      [] dongle0 600001).2.2 = true := by
  decide

/-- C4 (amended): a read answered from the fallback cache is answered with
exactly the bytes most recently stored under its fingerprint — `put`
replaces the entry under the key, and the serving path returns the stored
entry's bytes unconditionally, with no TTL check at serve time. -/
theorem C4_fallback_bytes_amended :
    (∀ (c : ProtocolBridge.Cache) (request : TcpParseResult) (now_ms : Nat)
      (e : ProtocolBridge.ReadCacheEntry),
      request.is_write_operation = false →
      ProtocolBridge.mapFind c
        ⟨request.function_code, request.start_register, request.register_count⟩ =
        some e →
      (ProtocolBridge.try_fallback_cache_on_error c request now_ms).1 =
        some e.tcp_response_packet) ∧
    (∀ (c : ProtocolBridge.Cache) (k : ProtocolBridge.ReadCacheKey)
      (v : List Nat) (now_ms now2_ms : Nat),
      (ProtocolBridge.get_fallback_response
        (ProtocolBridge.cache_response_for_fallback c k v now_ms) k now2_ms).1 =
        some v) :=
  ⟨ProtocolBridge.try_fallback_serves_stored, ProtocolBridge.get_after_put⟩

/-- Witness for C4 (amended) at the stale single-entry cache. -/
theorem C4_fallback_bytes_amended_witness :
    staleReadRequest.is_write_operation = false ∧
    ProtocolBridge.mapFind staleCache
      ⟨staleReadRequest.function_code, staleReadRequest.start_register,
        staleReadRequest.register_count⟩ = some staleEntry ∧
    (ProtocolBridge.try_fallback_cache_on_error staleCache staleReadRequest
      600001).1 = some staleEntry.tcp_response_packet :=
  ⟨by decide, by decide,
    C4_fallback_bytes_amended.1 staleCache staleReadRequest 600001 staleEntry
      (by decide) (by decide)⟩

/-- A 17-byte exception response: function 0x83 (read-holding exception),
start register 0, exception code 0x02. -/
def excRaw : List Nat :=
  [0x01, 0x83] ++ List.replicate 10 0 ++ [0x00, 0x00, 0x02, 0x00, 0x00]

/-- The read request the exception answers: function 0x03, start 0, one
register. -/
def c1Request : TcpParseResult :=
  { success := true, function_code := 3, start_register := 0, register_count := 1 }

/-- A cache already holding bytes under that read's fingerprint. -/
def c1Cache : ProtocolBridge.Cache :=
  [(⟨3, 0, 1⟩, ProtocolBridge.mkEntry ⟨3, 0, 1⟩ [0xAA] 0)]

set_option maxRecDepth 10000 in
/-- C1 counterexample. The arbiter yields an exception response bearing the
request's base function (0x03) and start register (0) — but because the
fallback cache holds an entry under the request's fingerprint,
`handle_rs485_error` consults the cache FIRST and sends the cached bytes
`[0xAA]`, not the wrapped exception frame the claim promises; the
"answered from cache" flag is set. -/
theorem C1_exception_passthrough_counterexample :
    (InverterProtocol.parse_response excRaw).success = false ∧
    (InverterProtocol.parse_response excRaw).error_message =
      InverterProtocol.modbusExceptionMsg 2 0 ∧
    (InverterProtocol.parse_response excRaw).function_code = c1Request.function_code ∧
    (InverterProtocol.parse_response excRaw).start_address = c1Request.start_register ∧
    (ProtocolBridge.handle_rs485_error c1Cache c1Request
      (InverterProtocol.parse_response excRaw) excRaw dongle0 5000).2.1 =
      ClientAction.sendBytes [0xAA] ∧
    (ProtocolBridge.handle_rs485_error c1Cache c1Request
      (InverterProtocol.parse_response excRaw) excRaw dongle0 5000).2.2 = true ∧
    ClientAction.sendBytes [0xAA] ≠
      ProtocolBridge.send_error_response excRaw dongle0 := by
  decide

/-- C1 (amended): exception pass-through holds only when the fallback
lookup misses (in particular for every write, whose lookup is skipped):
then the error path wraps the raw exception bytes via `build_response`
and the client receives a frame embedding the exception bytes minus their
trailing CRC, not served from cache. (In the code, the mismatch branch and
the plain branch send the same wrapped bytes — only the logged message
differs — so the exception-message test selects between identical
actions.) -/
theorem C1_exception_passthrough_amended (c : ProtocolBridge.Cache)
    (request : TcpParseResult) (result : InverterProtocol.ParseResult)
    (raw dongle : List Nat) (now_ms : Nat)
    (_hfail : result.success = false)
    (_hfunc : result.function_code = request.function_code)
    (_hstart : result.start_address = request.start_register)
    (hmiss : (ProtocolBridge.try_fallback_cache_on_error c request now_ms).1 = none)
    (hd : dongle.length = 10)
    (hacc : (if raw.getD 1 0 &&& 0x80 ≠ 0 then 17 else 18) ≤ raw.length) :
    ∃ w, TcpProtocol.build_response raw dongle = some w ∧
      (ProtocolBridge.handle_rs485_error c request result raw dongle now_ms).2.1 =
        ClientAction.sendBytes w ∧
      (ProtocolBridge.handle_rs485_error c request result raw dongle now_ms).2.2 =
        false ∧
      (w.drop 20).take (raw.length - 2) = raw.take (raw.length - 2) := by
  have hbuild := build_response_spec raw dongle hd hacc
  refine ⟨_, hbuild, ?_⟩
  have hraw : raw ≠ [] := by
    intro hc
    rw [hc] at hacc
    simp at hacc
  have herr : ProtocolBridge.handle_rs485_error c request result raw dongle now_ms =
      ((ProtocolBridge.try_fallback_cache_on_error c request now_ms).2,
        ProtocolBridge.send_error_response raw dongle, false) := by
    unfold ProtocolBridge.handle_rs485_error
    rcases htf : ProtocolBridge.try_fallback_cache_on_error c request now_ms with ⟨o, c'⟩
    rw [htf] at hmiss
    simp at hmiss
    subst hmiss
    by_cases hcond : result.error_message.startsWith
        InverterProtocol.modbusExceptionTag = true ∧
        ¬ ProtocolBridge.validate_response_match result request = true
    · simp [hcond]
    · simp [hcond]
  rw [herr]
  refine ⟨?_, rfl, ?_⟩
  · simp only [ProtocolBridge.send_error_response, if_pos hraw, hbuild]
  · exact ProtocolBridge.build_response_df raw dongle hd hacc _ hbuild

/-- Witness for C1 (amended): same exception frame and read request as the
counterexample, but with an empty cache, so the lookup misses and the
exception is forwarded. -/
theorem C1_exception_passthrough_amended_witness :
    (InverterProtocol.parse_response excRaw).success = false ∧
    (InverterProtocol.parse_response excRaw).function_code = c1Request.function_code ∧
    (InverterProtocol.parse_response excRaw).start_address = c1Request.start_register ∧
    (ProtocolBridge.try_fallback_cache_on_error [] c1Request 5000).1 = none ∧
    dongle0.length = 10 ∧
    ((if excRaw.getD 1 0 &&& 0x80 ≠ 0 then 17 else 18) ≤ excRaw.length) ∧
    (∃ w, TcpProtocol.build_response excRaw dongle0 = some w ∧
      (ProtocolBridge.handle_rs485_error [] c1Request
        (InverterProtocol.parse_response excRaw) excRaw dongle0 5000).2.1 =
        ClientAction.sendBytes w ∧
      (ProtocolBridge.handle_rs485_error [] c1Request
        (InverterProtocol.parse_response excRaw) excRaw dongle0 5000).2.2 = false ∧
      (w.drop 20).take (excRaw.length - 2) = excRaw.take (excRaw.length - 2)) :=
  ⟨by decide, by decide, by decide, by decide, by decide, by decide,
    C1_exception_passthrough_amended [] c1Request
      (InverterProtocol.parse_response excRaw) excRaw dongle0 5000
      (by decide) (by decide) (by decide) (by decide) (by decide) (by decide)⟩

namespace ProtocolBridge

theorem handle_error_write (c : Cache) (request : TcpParseResult)
    (result : InverterProtocol.ParseResult) (raw dongle : List Nat) (now_ms : Nat)
    (hw : request.is_write_operation = true) :
    handle_rs485_error c request result raw dongle now_ms =
      (c, send_error_response raw dongle, false) := by
  simp only [handle_rs485_error, try_fallback_cache_on_error, hw, if_true]
  split_ifs <;> rfl

theorem handle_success_write (c : Cache) (request : TcpParseResult)
    (result : InverterProtocol.ParseResult) (raw dongle : List Nat) (now_ms : Nat)
    (hw : request.is_write_operation = true) :
    (handle_rs485_success c request result raw dongle now_ms).1 = c ∧
    (handle_rs485_success c request result raw dongle now_ms).2.2 = false := by
  unfold handle_rs485_success
  split_ifs <;>
    rcases hb : TcpProtocol.build_response raw dongle with _ | w <;>
    simp [hb, cache_read_response, hw]

/-- Processing a write request never inserts, evicts or rewrites a cache
entry — provided the cache holds only read fingerprints, which is all the
bridge ever stores — and is never answered from the cache. -/
theorem process_write_request_cache (c : Cache) (request : TcpParseResult)
    (env : RequestEnv) (dongle : List Nat) (now_ms : Nat)
    (hw : request.is_write_operation = true)
    (hfunc : request.function_code = 0x06 ∨ request.function_code = 0x10)
    (hkeys : ∀ p ∈ c, p.1.function_code ≠ 0x06 ∧ p.1.function_code ≠ 0x10) :
    (process_request c request env dongle now_ms).1 = c ∧
    (process_request c request env dongle now_ms).2.2 = false := by
  have hnokey : mapFind c
      ⟨request.function_code, request.start_register, request.register_count⟩ = none := by
    rw [mapFind_eq_none_iff]
    intro hc
    obtain ⟨p, hp, hpk⟩ := List.mem_map.mp hc
    rcases hfunc with h6 | h16
    · exact (hkeys p hp).1 (by rw [hpk, h6])
    · exact (hkeys p hp).2 (by rw [hpk, h16])
  have hget : get_fallback_response c
      ⟨request.function_code, request.start_register, request.register_count⟩ now_ms =
      (none, c) := by
    simp [get_fallback_response, hnokey]
  unfold process_request
  split_ifs with h1 h2 h3 h4 h5 <;>
    try exact ⟨rfl, rfl⟩
  all_goals first
    | (rw [hget]
       exact ⟨rfl, rfl⟩)
    | (rcases houtcome : env.outcome with _ | ⟨result, raw⟩
       · simp [houtcome]
       · simp only [houtcome]
         unfold process_rs485_response
         split_ifs with hs
         · exact handle_success_write c request result raw dongle now_ms hw
         · rw [handle_error_write c request result raw dongle now_ms hw]
           exact ⟨rfl, rfl⟩)

end ProtocolBridge

namespace ProtocolBridge

theorem run_write_requests (reqs : List (TcpParseResult × RequestEnv × Nat))
    (dongle : List Nat)
    (hall : ∀ t ∈ reqs, t.1.is_write_operation = true ∧
      (t.1.function_code = 0x06 ∨ t.1.function_code = 0x10)) :
    (run_requests [] reqs dongle).1 = [] ∧
    (∀ b ∈ (run_requests [] reqs dongle).2, b = false) := by
  induction reqs with
  | nil => exact ⟨rfl, by simp [run_requests]⟩
  | cons t rest ih =>
    obtain ⟨request, env, now_ms⟩ := t
    have hh := hall _ (List.mem_cons_self _ rest)
    have hstep := process_write_request_cache [] request env dongle now_ms
      hh.1 hh.2 (by intro p hp; simp at hp)
    have ihres := ih (fun t' ht' => hall t' (List.mem_cons_of_mem _ ht'))
    simp only [run_requests]
    rw [hstep.1]
    refine ⟨ihres.1, ?_⟩
    intro b hb
    rcases List.mem_cons.mp hb with rfl | hb'
    · exact hstep.2
    · exact ihres.2 b hb'

end ProtocolBridge

/-- C5. **Writes never cached.** Processing a write request (function 0x06
or 0x10) leaves the fallback cache exactly as it was — no insertion, no
eviction, no invalidation (given the cache holds only read fingerprints,
which is all the bridge ever stores) — and a write is never answered from
the cache; after any sequence of write requests from boot, whatever their
outcomes, the cache holds zero entries. -/
theorem C5_writes_never_cached :
    (∀ (c : ProtocolBridge.Cache) (request : TcpParseResult)
      (env : ProtocolBridge.RequestEnv) (dongle : List Nat) (now_ms : Nat),
      request.is_write_operation = true →
      (request.function_code = 0x06 ∨ request.function_code = 0x10) →
      (∀ p ∈ c, p.1.function_code ≠ 0x06 ∧ p.1.function_code ≠ 0x10) →
      (ProtocolBridge.process_request c request env dongle now_ms).1 = c ∧
      (ProtocolBridge.process_request c request env dongle now_ms).2.2 = false) ∧
    (∀ (reqs : List (TcpParseResult × ProtocolBridge.RequestEnv × Nat))
      (dongle : List Nat),
      (∀ t ∈ reqs, t.1.is_write_operation = true ∧
        (t.1.function_code = 0x06 ∨ t.1.function_code = 0x10)) →
      (ProtocolBridge.run_requests [] reqs dongle).1 = [] ∧
      (∀ b ∈ (ProtocolBridge.run_requests [] reqs dongle).2, b = false)) :=
  ⟨ProtocolBridge.process_write_request_cache, ProtocolBridge.run_write_requests⟩

/-- A write-single request and a write-multi request, with assorted
environments (one dispatch failure, one bus completion). -/
def writeReqs : List (TcpParseResult × ProtocolBridge.RequestEnv × Nat) :=
  [({ success := true, function_code := 0x06, start_register := 21,
      register_count := 1, is_write_operation := true, write_values := [3] },
    { dispatch_ok := false }, 1000),
   ({ success := true, function_code := 0x10, start_register := 40,
      register_count := 2, is_write_operation := true, write_values := [1, 2] },
    { dispatch_ok := true, outcome := ProtocolBridge.BusOutcome.timeout }, 2000)]

/-- Witness for C5 at two concrete write requests. -/
theorem C5_writes_never_cached_witness :
    (∀ t ∈ writeReqs, t.1.is_write_operation = true ∧
      (t.1.function_code = 0x06 ∨ t.1.function_code = 0x10)) ∧
    ((ProtocolBridge.run_requests [] writeReqs dongle0).1 = [] ∧
      (∀ b ∈ (ProtocolBridge.run_requests [] writeReqs dongle0).2, b = false)) :=
  ⟨by decide, C5_writes_never_cached.2 writeReqs dongle0 (by decide)⟩

/-! ## Operation guard (modules/operation_guard.h / operation_guard.cpp) -/

namespace OperationGuard

/-- `OperationGuard::OperationType`. -/
inductive OperationType
  | TCP_CLIENT_PROCESSING
  | RS485_OPERATION
  | NETWORK_VALIDATION
  | WIFI_SCAN
  | OTA_OPERATION
deriving DecidableEq, Repr

end OperationGuard

/-- The `OperationGuard` RAII token returned by `acquireGuard`. -/
structure GuardToken where
  active : Bool
  type : OperationGuard.OperationType
  scan_reason : Option String
deriving DecidableEq, Repr

/-- The singleton `OperationGuardManager`'s state: one locked flag, one
active operation, one reason tag. -/
structure OperationGuardManager where
  operation_locked : Bool := false
  active_operation : OperationGuard.OperationType :=
    OperationGuard.OperationType.TCP_CLIENT_PROCESSING
  reason : Option String := none
deriving DecidableEq, Repr

namespace OperationGuardManager

/-- `OperationGuardManager::acquireGuard`: unconditionally records the new
owner and returns an active guard. There is no Busy path and the previous
owner is overwritten. -/
def acquireGuard (_s : OperationGuardManager)
    (type : OperationGuard.OperationType) (reason : Option String) :
    OperationGuardManager × GuardToken :=
  ({ operation_locked := true, active_operation := type, reason := reason },
   { active := true, type := type, scan_reason := reason })

/-- `OperationGuardManager::hasActiveOperation`. -/
def hasActiveOperation (s : OperationGuardManager) : Bool :=
  s.operation_locked

/-- `OperationGuardManager::getActiveOperation`. -/
def getActiveOperation (s : OperationGuardManager) : OperationGuard.OperationType :=
  s.active_operation

/-- `OperationGuardManager::isOperationInProgress`. -/
def isOperationInProgress (s : OperationGuardManager)
    (type : OperationGuard.OperationType) : Bool :=
  s.operation_locked && s.active_operation == type

/-- `OperationGuardManager::canPerformOperation`. -/
def canPerformOperation (s : OperationGuardManager)
    (type : OperationGuard.OperationType) : Bool :=
  if ¬ s.operation_locked then true
  else s.active_operation == type

/-- `OperationGuardManager::releaseGuard` (via `OperationGuard::release`):
clears the lock and the reason, leaves `active_operation_` as is. -/
def releaseGuard (s : OperationGuardManager) : OperationGuardManager :=
  { s with operation_locked := false, reason := none }

end OperationGuardManager

def reasonScan : String := "wifi_scan"

def reasonOta : String := "ota_update"

/-- A manager currently owned by a WiFi scan. -/
def busyGuardState : OperationGuardManager :=
  { operation_locked := true,
    active_operation := OperationGuard.OperationType.WIFI_SCAN,
    reason := some reasonScan }

/-- C8 counterexample. With the guard owned by a WiFi scan, acquiring for
an OTA operation does NOT return Busy: it returns an owning (active) guard
and overwrites both the owner and the reason tag — contradicting "returns
Busy rather than an owning Guard ... the existing owner and its reason tag
are left unchanged". -/
theorem C8_guard_counterexample :
    OperationGuardManager.hasActiveOperation busyGuardState = true ∧
    (OperationGuardManager.acquireGuard busyGuardState
      OperationGuard.OperationType.OTA_OPERATION (some reasonOta)).2.active = true ∧
    (OperationGuardManager.acquireGuard busyGuardState
      OperationGuard.OperationType.OTA_OPERATION (some reasonOta)).1.active_operation ≠
      busyGuardState.active_operation ∧
    (OperationGuardManager.acquireGuard busyGuardState
      OperationGuard.OperationType.OTA_OPERATION (some reasonOta)).1.reason ≠
      busyGuardState.reason := by
  decide

/-- C8 (amended): `acquireGuard` always succeeds, handing back an active
guard and overwriting the lock, owner and reason; mutual exclusion is
advisory — callers (such as the bridge, which rejects the request when
`hasActiveOperation` is set) must check `hasActiveOperation` /
`canPerformOperation` before acquiring; `canPerformOperation` permits an
operation iff the guard is unlocked or already owned by the same kind, and
release clears the lock. -/
theorem C8_guard_amended :
    (∀ (s : OperationGuardManager) (ty : OperationGuard.OperationType)
      (reason : Option String),
      (OperationGuardManager.acquireGuard s ty reason).2.active = true ∧
      (OperationGuardManager.acquireGuard s ty reason).1 =
        { operation_locked := true, active_operation := ty, reason := reason }) ∧
    (∀ (s : OperationGuardManager) (ty : OperationGuard.OperationType),
      OperationGuardManager.canPerformOperation s ty = true ↔
        (s.operation_locked = false ∨ s.active_operation = ty)) ∧
    (∀ s : OperationGuardManager,
      (OperationGuardManager.releaseGuard s).operation_locked = false) := by
  refine ⟨fun s ty reason => ⟨rfl, rfl⟩, ?_, fun s => rfl⟩
  intro s ty
  unfold OperationGuardManager.canPerformOperation
  by_cases h : s.operation_locked = true
  · simp [h]
  · simp at h
    simp [h]

/-! ## Serial arbiter (modules/rs485_manager.cpp, `LuxProtocol` +
`RS485Manager`)

The `LuxProtocol` codec differs from `InverterProtocol` in its minimum
sizes (`LUX_MIN_RESPONSE_SIZE` = 18, `LUX_MIN_EXCEPTION_SIZE` = 15) and in
computing response CRCs over the whole received buffer. `RS485Manager`'s
UART I/O is outside the model; `send_packet` keeps only its state
effects. -/

namespace SerialUtils

/-- `SerialUtils::write_serial`: copy up to `len` bytes of the string,
zero-pad the rest. -/
def write_serial (len : Nat) (serial : String) : List Nat :=
  let bs := serial.toList.map Char.toNat
  bs.take len ++ List.replicate (len - min bs.length len) 0

/-- `SerialUtils::format_serial`: printable bytes verbatim, dots
elsewhere. -/
def format_serial (serial : List Nat) (len : Nat) : String :=
  String.mk ((serial.take len).map
    (fun b => if 0x20 ≤ b ∧ b ≤ 0x7E then Char.ofNat b else '.'))

end SerialUtils

namespace LuxProtocol

def LUX_DEVICE_ADDR_REQUEST : Nat := 0x00

def LUX_DEVICE_ADDR_RESPONSE : Nat := 0x01

def LUX_SERIAL_NUMBER_LENGTH : Nat := 10

def LUX_INVERTER_SN_START_REG : Nat := 115

def LUX_INVERTER_SN_REG_COUNT : Nat := 5

def LUX_MAX_REGISTERS : Nat := 127

def LUX_MIN_REQUEST_SIZE : Nat := 18

def LUX_MIN_RESPONSE_SIZE : Nat := 18

def LUX_MIN_EXCEPTION_SIZE : Nat := 15

def RS485_PROBE_BACKOFF_BASE_MS : Nat := 5000

def RS485_PROBE_BACKOFF_MAX_MS : Nat := 5 * 60 * 1000

/-- `struct LuxParseResult` (rs485_manager.h). -/
structure LuxParseResult where
  success : Bool := false
  function_code : Nat := 0x04
  start_address : Nat := 0
  register_count : Nat := 0
  serial_number : List Nat := List.replicate 10 0
  register_values : List Nat := []
  error_message : String := ""
deriving DecidableEq, Repr

/-- `LuxProtocol::is_request`. -/
def is_request (data : List Nat) : Bool :=
  if data.length < 1 then false
  else data.getD 0 0 == LUX_DEVICE_ADDR_REQUEST

/-- `LuxProtocol::is_valid_response` (reads `data[1]` with no 2-byte
guard). -/
def is_valid_response (data : List Nat) : Bool :=
  let func := data.getD 1 0
  let is_exception := func &&& 0x80 ≠ 0
  let min_size := if is_exception then LUX_MIN_EXCEPTION_SIZE else LUX_MIN_RESPONSE_SIZE
  if data.length < min_size then false
  else if data.getD 0 0 ≠ LUX_DEVICE_ADDR_RESPONSE then false
  else
    let base_func := func &&& 0x7F
    base_func = 0x03 ∨ base_func = 0x04 ∨ base_func = 0x06 ∨ base_func = 0x10

/-- Lux `parse_exception_response`: function code and serial recorded
unconditionally; `success` never set. -/
def parse_exception_response (data : List Nat) : LuxParseResult :=
  let func_byte := data.getD 1 0
  let base := func_byte &&& 0x7F
  let serial := (data.drop 2).take LUX_SERIAL_NUMBER_LENGTH
  if data.length ≥ LUX_MIN_EXCEPTION_SIZE then
    let failed_register := parseLE16 data 12
    let exception_code := data.getD 14 0
    { function_code := base, serial_number := serial,
      start_address := failed_register,
      error_message := InverterProtocol.modbusExceptionMsg exception_code failed_register }
  else
    { function_code := base, serial_number := serial,
      error_message := InverterProtocol.msgExcMalformed }

/-- Lux `parse_read_response` (CRC over the whole buffer minus 2; a CRC
mismatch is recorded but parsing continues and `success` is still set). -/
def parse_read_response (data : List Nat) (func_byte : Nat) : LuxParseResult :=
  let serial := (data.drop 2).take LUX_SERIAL_NUMBER_LENGTH
  let start_address := parseLE16 data 12
  let byte_count := data.getD 14 0
  let expected_length := 15 + byte_count + 2
  if data.length < expected_length then
    { function_code := func_byte, serial_number := serial,
      start_address := start_address,
      error_message := InverterProtocol.msgRespShort }
  else
    let calculated_crc := CRC16.calculate (data.take (data.length - 2))
    let received_crc := parseLE16 data (data.length - 2)
    let err := if calculated_crc ≠ received_crc then InverterProtocol.msgCrcMismatch else ""
    { success := true, function_code := func_byte, serial_number := serial,
      start_address := start_address,
      register_count := byte_count / 2,
      register_values := (List.range (byte_count / 2)).map
        (fun i => parseLE16 data (15 + 2 * i)),
      error_message := err }

/-- Lux `parse_write_single_response`. -/
def parse_write_single_response (data : List Nat) : LuxParseResult :=
  let serial := (data.drop 2).take LUX_SERIAL_NUMBER_LENGTH
  let start_address := parseLE16 data 12
  if data.length < 18 then
    { function_code := 0x06, serial_number := serial,
      start_address := start_address,
      error_message := InverterProtocol.msgRespShort }
  else
    let calculated_crc := CRC16.calculate (data.take (data.length - 2))
    let received_crc := parseLE16 data (data.length - 2)
    let err := if calculated_crc ≠ received_crc then InverterProtocol.msgCrcMismatch else ""
    { success := true, function_code := 0x06, serial_number := serial,
      start_address := start_address, register_count := 1,
      register_values := [parseLE16 data 14],
      error_message := err }

/-- Lux `parse_write_multi_response`. -/
def parse_write_multi_response (data : List Nat) : LuxParseResult :=
  let serial := (data.drop 2).take LUX_SERIAL_NUMBER_LENGTH
  let start_address := parseLE16 data 12
  if data.length < 18 then
    { function_code := 0x10, serial_number := serial,
      start_address := start_address,
      error_message := InverterProtocol.msgRespShort }
  else
    let calculated_crc := CRC16.calculate (data.take (data.length - 2))
    let received_crc := parseLE16 data (data.length - 2)
    let err := if calculated_crc ≠ received_crc then InverterProtocol.msgCrcMismatch else ""
    { success := true, function_code := 0x10, serial_number := serial,
      start_address := start_address,
      register_count := parseLE16 data 14,
      error_message := err }

/-- `LuxProtocol::parse_response`. -/
def parse_response (data : List Nat) : LuxParseResult :=
  if ¬ is_valid_response data then
    { error_message := InverterProtocol.msgInvalid }
  else
    let func_byte := data.getD 1 0
    if func_byte &&& 0x80 ≠ 0 then
      parse_exception_response data
    else if func_byte = 0x03 ∨ func_byte = 0x04 then
      parse_read_response data func_byte
    else if func_byte = 0x06 then
      parse_write_single_response data
    else if func_byte = 0x10 then
      parse_write_multi_response data
    else
      { error_message := InverterProtocol.msgUnknownFunc }

/-- `LuxProtocol::create_read_request`. -/
def create_read_request (func start_reg count : Nat) (serial_number : String) :
    Option (List Nat) :=
  if count = 0 ∨ count > LUX_MAX_REGISTERS then none
  else
    let serialBytes := if serial_number.length = 0 then
        List.replicate LUX_SERIAL_NUMBER_LENGTH 0
      else SerialUtils.write_serial LUX_SERIAL_NUMBER_LENGTH serial_number
    let body := [LUX_DEVICE_ADDR_REQUEST, func] ++ serialBytes ++
      writeLE16 start_reg ++ writeLE16 count
    some (body ++ writeLE16 (CRC16.calculate body))

/-- `LuxProtocol::create_write_request` (single 0x06 / multi 0x10). -/
def create_write_request (start_reg : Nat) (values : List Nat)
    (serial_number : String) : Option (List Nat) :=
  if values = [] ∨ values.length > LUX_MAX_REGISTERS then none
  else
    let serialBytes := if serial_number.length = 0 then
        List.replicate LUX_SERIAL_NUMBER_LENGTH 0
      else SerialUtils.write_serial LUX_SERIAL_NUMBER_LENGTH serial_number
    if values.length = 1 then
      let body := [LUX_DEVICE_ADDR_REQUEST, 0x06] ++ serialBytes ++
        writeLE16 start_reg ++ writeLE16 (values.getD 0 0)
      some (body ++ writeLE16 (CRC16.calculate body))
    else
      let byte_count := values.length * 2
      let body := [LUX_DEVICE_ADDR_REQUEST, 0x10] ++ serialBytes ++
        writeLE16 start_reg ++ writeLE16 values.length ++
        [byte_count &&& 0xFF] ++ (values.map writeLE16).flatten
      some (body ++ writeLE16 (CRC16.calculate body))

end LuxProtocol

def msgFuncMismatch : String := "Response function code mismatch"

def msgStartMismatch : String := "Response start register mismatch"

/-- `RS485Manager`'s state (rs485_manager.h members reachable from the
dispatch and response-handling paths). -/
structure RS485State where
  initialized : Bool := false
  waiting_response : Bool := false
  expected_function_code : Nat := 0x04
  expected_start_reg : Nat := 0
  last_result : LuxProtocol.LuxParseResult := {}
  last_raw_response : List Nat := []
  serial_probe_pending : Bool := false
  inverter_link_ok : Bool := false
  serial_number : String := ""
  inverter_serial_detected : String := ""
  serial_probe_backoff_ms : Nat := LuxProtocol.RS485_PROBE_BACKOFF_BASE_MS
  next_serial_probe_ms : Nat := 0
  last_tx_time : Nat := 0
  total_requests : Nat := 0
  successful_responses : Nat := 0
  failed_responses : Nat := 0
deriving Repr

namespace RS485Manager

/-- `RS485Manager::send_packet`: the state effects around the UART write. -/
def send_packet (s : RS485State) (now : Nat) : RS485State :=
  { s with
    last_tx_time := now,
    waiting_response := true,
    total_requests := s.total_requests + 1 }

/-- `RS485Manager::request_inverter_serial_probe`. -/
def request_inverter_serial_probe (s : RS485State) (now : Nat) : RS485State :=
  if ¬ s.initialized then s
  else if s.waiting_response then s
  else if now < s.next_serial_probe_ms then s
  else
    let s1 := { s with inverter_link_ok := false }
    match LuxProtocol.create_read_request 0x04 LuxProtocol.LUX_INVERTER_SN_START_REG
      LuxProtocol.LUX_INVERTER_SN_REG_COUNT s.serial_number with
    | none => s1
    | some _ =>
      send_packet { s1 with
        serial_probe_pending := true,
        expected_function_code := 0x04,
        expected_start_reg := LuxProtocol.LUX_INVERTER_SN_START_REG } now

/-- `RS485Manager::send_read_request`: records the expected function code
and start register exactly when it dispatches. -/
def send_read_request (s : RS485State) (func start_reg count now : Nat) :
    RS485State × Bool :=
  if ¬ s.initialized ∨ s.waiting_response then (s, false)
  else if ¬ s.inverter_link_ok ∧ ¬ s.serial_probe_pending then
    (request_inverter_serial_probe s now, false)
  else
    match LuxProtocol.create_read_request func start_reg count s.serial_number with
    | none => (s, false)
    | some _ =>
      (send_packet { s with
        expected_function_code := func,
        expected_start_reg := start_reg } now, true)

/-- `RS485Manager::send_write_request`. -/
def send_write_request (s : RS485State) (start_reg : Nat) (values : List Nat)
    (now : Nat) : RS485State × Bool :=
  if ¬ s.initialized ∨ s.waiting_response then (s, false)
  else if ¬ s.inverter_link_ok ∧ ¬ s.serial_probe_pending then
    (request_inverter_serial_probe s now, false)
  else
    match LuxProtocol.create_write_request start_reg values s.serial_number with
    | none => (s, false)
    | some _ =>
      (send_packet { s with
        expected_function_code := if values.length = 1 then 0x06 else 0x10,
        expected_start_reg := start_reg } now, true)

/-- The validation block at the top of `RS485Manager::handle_response`: a
parsed response whose function code or start register differs from the
request in flight is downgraded to failure. -/
def validate_last_result (s : RS485State) (result0 : LuxProtocol.LuxParseResult) :
    LuxProtocol.LuxParseResult :=
  if result0.success = true ∧ result0.function_code ≠ s.expected_function_code then
    { result0 with success := false, error_message := msgFuncMismatch }
  else if result0.success = true ∧ result0.start_address ≠ s.expected_start_reg then
    { result0 with success := false, error_message := msgStartMismatch }
  else result0

/-- `RS485Manager::handle_response`: store the raw bytes, parse, validate
against the expected request, then do the probe bookkeeping. -/
def handle_response (s : RS485State) (data : List Nat) (now : Nat) : RS485State :=
  let result1 := validate_last_result s (LuxProtocol.parse_response data)
  let is_serial_probe := s.serial_probe_pending = true ∧
    result1.function_code = 0x04 ∧
    result1.start_address = LuxProtocol.LUX_INVERTER_SN_START_REG ∧
    result1.register_count ≥ LuxProtocol.LUX_INVERTER_SN_REG_COUNT
  let s1 := { s with
    last_raw_response := data,
    last_result := result1 }
  let s2 :=
    if result1.success then
      if is_serial_probe then
        let available := if data.length > 15 then data.length - 15 else 0
        let serial_bytes := (data.drop 15).take
          (min available LuxProtocol.LUX_SERIAL_NUMBER_LENGTH) ++
          List.replicate (LuxProtocol.LUX_SERIAL_NUMBER_LENGTH -
            min available LuxProtocol.LUX_SERIAL_NUMBER_LENGTH) 0
        let detected := SerialUtils.format_serial serial_bytes
          LuxProtocol.LUX_SERIAL_NUMBER_LENGTH
        { s1 with
          inverter_serial_detected := detected,
          serial_number := detected,
          serial_probe_pending := false,
          inverter_link_ok := true,
          serial_probe_backoff_ms := LuxProtocol.RS485_PROBE_BACKOFF_BASE_MS,
          next_serial_probe_ms := 0,
          successful_responses := s.successful_responses + 1 }
      else
        { s1 with successful_responses := s.successful_responses + 1 }
    else
      if is_serial_probe then
        { s1 with
          failed_responses := s.failed_responses + 1,
          serial_probe_pending := false,
          inverter_link_ok := false,
          next_serial_probe_ms := now + s.serial_probe_backoff_ms,
          serial_probe_backoff_ms := min (s.serial_probe_backoff_ms * 2)
            LuxProtocol.RS485_PROBE_BACKOFF_MAX_MS }
      else
        { s1 with failed_responses := s.failed_responses + 1 }
  if s2.serial_probe_pending = true ∧ ¬ is_serial_probe then
    { s2 with serial_probe_pending := false }
  else s2

end RS485Manager

namespace RS485Manager

theorem handle_response_last_result (s : RS485State) (data : List Nat) (now : Nat) :
    (handle_response s data now).last_result =
      validate_last_result s (LuxProtocol.parse_response data) ∧
    (handle_response s data now).expected_function_code = s.expected_function_code ∧
    (handle_response s data now).expected_start_reg = s.expected_start_reg := by
  simp only [handle_response]
  split_ifs <;> exact ⟨rfl, rfl, rfl⟩

theorem validate_last_result_spec (s : RS485State)
    (result0 : LuxProtocol.LuxParseResult)
    (h : (validate_last_result s result0).success = true) :
    (validate_last_result s result0).function_code = s.expected_function_code ∧
    (validate_last_result s result0).start_address = s.expected_start_reg := by
  unfold validate_last_result at h ⊢
  by_cases h1 : result0.success = true ∧ result0.function_code ≠ s.expected_function_code
  · rw [if_pos h1] at h
    simp at h
  · rw [if_neg h1] at h ⊢
    by_cases h2 : result0.success = true ∧ result0.start_address ≠ s.expected_start_reg
    · rw [if_pos h2] at h
      simp at h
    · rw [if_neg h2] at h ⊢
      constructor
      · by_contra hc
        exact h1 ⟨h, hc⟩
      · by_contra hc
        exact h2 ⟨h, hc⟩

end RS485Manager

/-- C10. Arbiter validation invariant: after `handle_response`, a last
result marked successful always carries the function code and start
register recorded at dispatch — any parsed response that differs is
downgraded to failure before the bridge sees it; and dispatching a
read/write records exactly the request's function code and start
register as the expected values. -/
theorem C10_arbiter_validation :
    (∀ (s : RS485State) (data : List Nat) (now : Nat),
      (RS485Manager.handle_response s data now).last_result.success = true →
      (RS485Manager.handle_response s data now).last_result.function_code =
        s.expected_function_code ∧
      (RS485Manager.handle_response s data now).last_result.start_address =
        s.expected_start_reg) ∧
    (∀ (s : RS485State) (func start_reg count now : Nat),
      (RS485Manager.send_read_request s func start_reg count now).2 = true →
      (RS485Manager.send_read_request s func start_reg count now).1.expected_function_code =
        func ∧
      (RS485Manager.send_read_request s func start_reg count now).1.expected_start_reg =
        start_reg) ∧
    (∀ (s : RS485State) (start_reg : Nat) (values : List Nat) (now : Nat),
      (RS485Manager.send_write_request s start_reg values now).2 = true →
      (RS485Manager.send_write_request s start_reg values now).1.expected_function_code =
        (if values.length = 1 then 0x06 else 0x10) ∧
      (RS485Manager.send_write_request s start_reg values now).1.expected_start_reg =
        start_reg) := by
  refine ⟨?_, ?_, ?_⟩
  · intro s data now h
    obtain ⟨hlr, -, -⟩ := RS485Manager.handle_response_last_result s data now
    rw [hlr] at h ⊢
    exact RS485Manager.validate_last_result_spec s (LuxProtocol.parse_response data) h
  · intro s func start_reg count now h
    unfold RS485Manager.send_read_request at h ⊢
    split_ifs at h ⊢ with h1 h2
    rcases hm : LuxProtocol.create_read_request func start_reg count s.serial_number with
      _ | packet
    · rw [hm] at h
      simp at h
    · exact ⟨rfl, rfl⟩
  · intro s start_reg values now h
    unfold RS485Manager.send_write_request at h ⊢
    split_ifs at h ⊢ with h1 h2 <;>
      (rcases hm : LuxProtocol.create_write_request start_reg values s.serial_number with
        _ | packet
       · rw [hm] at h
         simp at h
       · exact ⟨rfl, rfl⟩)

/-- A ready arbiter awaiting a response for function 0x04, start 5. -/
def rs485Awaiting : RS485State :=
  { initialized := true, waiting_response := true, expected_function_code := 4,
    expected_start_reg := 5, inverter_link_ok := true }

/-- An idle, linked arbiter. -/
def rs485Idle : RS485State := { initialized := true, inverter_link_ok := true }

/-- A 19-byte read response: function 0x04, start 5, one register. -/
def readResp19 : List Nat :=
  [1, 4, 0, 0, 0, 0, 0, 0, 0, 0, 0, 0, 5, 0, 2, 0x34, 0x12, 0, 0]

/-- Witness for C10 at a concrete matching response and concrete
dispatches. -/
theorem C10_arbiter_validation_witness :
    ((RS485Manager.handle_response rs485Awaiting readResp19 99).last_result.success =
      true ∧
      (RS485Manager.handle_response rs485Awaiting readResp19 99).last_result.function_code =
        rs485Awaiting.expected_function_code ∧
      (RS485Manager.handle_response rs485Awaiting readResp19 99).last_result.start_address =
        rs485Awaiting.expected_start_reg) ∧
    ((RS485Manager.send_read_request rs485Idle 3 100 5 7).2 = true ∧
      (RS485Manager.send_read_request rs485Idle 3 100 5 7).1.expected_function_code = 3 ∧
      (RS485Manager.send_read_request rs485Idle 3 100 5 7).1.expected_start_reg = 100) ∧
    ((RS485Manager.send_write_request rs485Idle 21 [3] 7).2 = true ∧
      (RS485Manager.send_write_request rs485Idle 21 [3] 7).1.expected_function_code =
        (if ([3] : List Nat).length = 1 then 0x06 else 0x10) ∧
      (RS485Manager.send_write_request rs485Idle 21 [3] 7).1.expected_start_reg = 21) :=
  ⟨⟨by decide, C10_arbiter_validation.1 rs485Awaiting readResp19 99 (by decide)⟩,
   ⟨by decide, C10_arbiter_validation.2.1 rs485Idle 3 100 5 7 (by decide)⟩,
   ⟨by decide, C10_arbiter_validation.2.2 rs485Idle 21 [3] 7 (by decide)⟩⟩
